import Mathlib

/-!
Verification development for the sandboxed shell execution service ("sos").

The definitions below are a shallow embedding of the Rust sources:
  * `src/lib/sandbox/shell.rs`  — marker constants and the shell configuration command;
  * `src/lib/sandbox/io.rs`     — marker regex, `read_stream_until_idle`,
                                  `strip_markers_and_extract_exit_code`;
  * `src/lib/sandbox/mod.rs`    — the `Sandbox` state machine (`start`,
                                  `exec_session_cmd`, `exec_standalone_cmd`, `stop`);
  * `src/lib/http.rs`           — the `start_sandbox` request handler.

Strings are modelled as `List Char`.  Rust `i64` values are modelled as `Int`
with the explicit bound `I64_MAX`; a Rust `expect`/panic is modelled by an
`Option`/`Outcome.panicked` result.  Asynchronous container-host calls are
modelled by explicit outcome oracles (environment records) passed to each
operation, and every operation also returns the list of container-host
effects it performed, in order.
-/

namespace Sos

/-- Boolean test that `pat` occurs at the very start of `s`
(Rust `str::starts_with` / the anchored step of the regex and replace scans). -/
def seqPre (pat s : List Char) : Bool :=
  match pat, s with
  | [], _ => true
  | _ :: _, [] => false
  | p :: ps, c :: cs => p == c && seqPre ps cs

/-- Char index of the first occurrence of `pat` in `s` (Rust `str::find`);
`none` when `pat` does not occur.  For a nonempty `pat` an empty haystack has
no occurrence, matching Rust. -/
def firstIdxOf (pat : List Char) : List Char → Option Nat
  | [] => if pat.isEmpty then some 0 else none
  | c :: rest =>
    if seqPre pat (c :: rest) then some 0
    else (firstIdxOf pat rest).map (· + 1)

/-- Fuel-driven worker for `removeAll`.  One unit of fuel is spent per scan
position, and the scan consumes at least one character per step, so fuel equal
to the length of the text suffices (`removeAll` supplies exactly that). -/
def removeAllAux (pat : List Char) : Nat → List Char → List Char
  | 0, s => s
  | _ + 1, [] => []
  | fuel + 1, c :: rest =>
    if seqPre pat (c :: rest) then
      removeAllAux pat fuel (rest.drop (pat.length - 1))
    else
      c :: removeAllAux pat fuel rest

/-- Remove every occurrence of `pat` from `s`: Rust `str::replace(pat, "")`,
which scans left to right over the original text and never rescans the
replacement.  All patterns used in the sources are nonempty. -/
def removeAll (pat s : List Char) : List Char := removeAllAux pat s.length s

/-- Trim trailing whitespace (Rust `str::trim_end`; whitespace is modelled as
ASCII whitespace, which covers every character the markers and the shell
protocol produce). -/
def trimEnd (s : List Char) : List Char :=
  ((s.reverse).dropWhile Char.isWhitespace).reverse

/-- Numeric value of a string of decimal digits. -/
def digitsToNat (d : List Char) : Nat :=
  d.foldl (fun a c => a * 10 + (c.toNat - ('0').toNat)) 0

/-- `i64::MAX`. -/
def I64_MAX : Nat := 9223372036854775807

/-- Rust `str::parse::<i64>()` restricted to the digit strings the marker
regex captures: succeeds exactly when the digits are nonempty, all decimal,
and the value fits in a signed 64-bit integer. -/
def parseI64Digits (d : List Char) : Option Int :=
  if d.isEmpty then none
  else if d.all Char.isDigit && decide (digitsToNat d ≤ I64_MAX) then
    some (digitsToNat d)
  else none

/-- `mapM` over `Option`, written out so that it unfolds structurally.  Used
to model the loop in `strip_markers_and_extract_exit_code` that parses the
captured digits of every regex match and panics (`expect`) on the first
failure: a `none` result is the panic. -/
def optionTraverse (f : α → Option β) : List α → Option (List β)
  | [] => some []
  | a :: as =>
    match f a, optionTraverse f as with
    | some b, some bs => some (b :: bs)
    | _, _ => none

/-! ## Marker constants (`src/lib/sandbox/shell.rs`) -/

/-- `UNIQUE_MARKER`: a hard-coded process-wide constant (the source comment
reads "Change this"); it does not depend on any sandbox. -/
def UNIQUE_MARKER : String := "TR0N-F1GHTS-4-TH3-U23R2"

/-- `PS1_MARKER = formatcp!("#PS1-{}#:", UNIQUE_MARKER)`. -/
def PS1_MARKER : String := "#PS1-" ++ UNIQUE_MARKER ++ "#:"

/-- `PS2_MARKER = formatcp!("#PS2-{}#:", UNIQUE_MARKER)`. -/
def PS2_MARKER : String := "#PS2-" ++ UNIQUE_MARKER ++ "#:"

/-- `EXIT_MARKER = formatcp!("#EXIT-{}#:", UNIQUE_MARKER)`. -/
def EXIT_MARKER : String := "#EXIT-" ++ UNIQUE_MARKER ++ "#:"

/-- The PS1 marker as a character list. -/
def ps1M : List Char := PS1_MARKER.data

/-- The PS2 marker as a character list. -/
def ps2M : List Char := PS2_MARKER.data

/-- The exit-sentinel marker as a character list. -/
def exitM : List Char := EXIT_MARKER.data

/-- The prompt string `PS1 = formatcp!("{}$?:", PS1_MARKER)`. -/
def PS1 : String := PS1_MARKER ++ "$?:"

/-- `CONF_CMD`: the single newline-terminated shell configuration line built
in `shell.rs` by `concatcp!` (input echo off, bracketed paste off, PS1/PS2
set and made readonly, `exit` overridden to emit the exit sentinel, pipefail,
ignoreeof).  Shell braces are written as escapes. -/
def CONF_CMD : String :=
  "stty -echo; "
  ++ "bind 'set enable-bracketed-paste off'; "
  ++ ("PS1='" ++ PS1 ++ "'; ")
  ++ ("PS2='" ++ PS2_MARKER ++ "'; ")
  ++ "readonly PS1; readonly PS2; "
  ++ ("exit() \x7b echo '" ++ EXIT_MARKER ++ "'; return 0; \x7d; export -f exit; ")
  ++ "set -o pipefail; "
  ++ "set -o ignoreeof; "
  ++ "\n"

/-! ## The PS1 marker regex (`src/lib/sandbox/io.rs`)

`OUTPUT_MARKER_REGEX` is `escape(PS1_MARKER)(\d+):`.  Because `\d` cannot
match `:`, a match at a position exists exactly when the position starts with
`PS1_MARKER`, followed by a nonempty maximal run of decimal digits, followed
by `:`; the match text is the marker, the digits and the colon.  `find_iter`
and `captures_iter` enumerate non-overlapping matches left to right. -/

/-- One anchored regex match attempt: returns (full match text, captured
digits, rest of the text after the match). -/
def ps1MatchAt (s : List Char) : Option (List Char × List Char × List Char) :=
  if seqPre ps1M s then
    let r1 := s.drop ps1M.length
    let digits := r1.takeWhile Char.isDigit
    match r1.drop digits.length with
    | ':' :: after =>
      if digits.isEmpty then none
      else some (ps1M ++ digits ++ [':'], digits, after)
    | _ => none
  else none

/-- Fuel-driven scan over the text, producing the list of regex matches (full
text and captured digits, in order) together with the text with all matches
removed (the effect of `replace_all(.., "")`).  Fuel equal to the length of
the text suffices since every step consumes at least one character. -/
def ps1ScanAux : Nat → List Char → List (List Char × List Char) × List Char
  | 0, s => ([], s)
  | _ + 1, [] => ([], [])
  | fuel + 1, c :: rest =>
    match ps1MatchAt (c :: rest) with
    | some (txt, digits, after) =>
      let r := ps1ScanAux fuel after
      ((txt, digits) :: r.1, r.2)
    | none =>
      let r := ps1ScanAux fuel rest
      (r.1, c :: r.2)

/-- The non-overlapping matches of `OUTPUT_MARKER_REGEX` and the text with
those matches removed. -/
def ps1Scan (s : List Char) : List (List Char × List Char) × List Char :=
  ps1ScanAux s.length s

/-- The matches of `OUTPUT_MARKER_REGEX` in `s` (`find_iter` and
`captures_iter` agree on these). -/
def ps1Matches (s : List Char) : List (List Char × List Char) := (ps1Scan s).1

/-- `OUTPUT_MARKER_REGEX.replace_all(s, "")`. -/
def ps1Remove (s : List Char) : List Char := (ps1Scan s).2

/-! ## `strip_markers_and_extract_exit_code` (`src/lib/sandbox/io.rs`) -/

/-- The buffer the function works on after the first two steps: PS2 markers
removed, and, when the exit sentinel occurs at index `idx`, the text cut at
`idx` with the text of the last PS1-marker regex match (of the PS2-cleaned
text) appended. -/
def stripBuf (s : List Char) : List Char :=
  let c0 := removeAll ps2M s
  match firstIdxOf exitM c0 with
  | some idx =>
    match (ps1Matches c0).getLast? with
    | some m => c0.take idx ++ m.1
    | none => c0.take idx
  | none => c0

/-- Whether the exit sentinel was seen (in the PS2-cleaned text). -/
def exitSeenIn (s : List Char) : Bool :=
  (firstIdxOf exitM (removeAll ps2M s)).isSome

/-- `strip_markers_and_extract_exit_code`.  Returns
`some (cleaned, last_exit_code, exit_marker_seen)`; returns `none` when the
source panics, i.e. when `parse::<i64>().expect(..)` fails on the captured
digits of some match (the loop parses every match's digits and keeps the last
value, starting from the `-1` sentinel). -/
def stripMarkersAndExtractExitCode (s : List Char) : Option (List Char × Int × Bool) :=
  let buf := stripBuf s
  match optionTraverse (fun m => parseI64Digits m.2) (ps1Matches buf) with
  | none => none
  | some codes =>
    some (trimEnd (removeAll ps1M (ps1Remove buf)), codes.getLastD (-1), exitSeenIn s)

/-- Written from the words of the specification (§4.4) and of claim C2:
remove every PS2 occurrence; if the exit sentinel occurs at position `i`,
report it and rebuild the buffer as the text before `i` plus the text of the
last PS1-marker regex match of the full text (the cut text alone when there
is no match); report as exit code the digits captured by the last PS1-marker
regex match, `-1` when there is none; remove all PS1-marker matches and bare
marker occurrences and trim trailing whitespace. -/
def stripSpec (s : List Char) : Option (List Char × Int × Bool) :=
  let noPS2 := removeAll ps2M s
  let seen := (firstIdxOf exitM noPS2).isSome
  let buf :=
    match firstIdxOf exitM noPS2 with
    | some i =>
      match ((ps1Matches noPS2).getLast?).map (fun m => m.1) with
      | some t => noPS2.take i ++ t
      | none => noPS2.take i
    | none => noPS2
  let codeOpt :=
    match (ps1Matches buf).getLast? with
    | some m => parseI64Digits m.2
    | none => some (-1)
  codeOpt.map fun code => (trimEnd (removeAll ps1M (ps1Remove buf)), code, seen)

/-- Written from the words of the specification (§4.4 `clean_terminal_output`)
and of claim C9: replace each line by the segment after its last carriage
return. -/
def splitOnChar (sep : Char) : List Char → List (List Char)
  | [] => [[]]
  | c :: rest =>
    if c = sep then [] :: splitOnChar sep rest
    else
      match splitOnChar sep rest with
      | [] => [[c]]
      | p :: ps => (c :: p) :: ps

/-- Claim C9's carriage-return folding: for each line of `s`, keep only the
segment after the line's last `\r`. -/
def foldCrLines (s : List Char) : List Char :=
  List.intercalate ['\n']
    ((splitOnChar '\n' s).map (fun line => (splitOnChar '\x0d' line).getLastD []))

/-! ## `read_stream_until_idle` (`src/lib/sandbox/io.rs`)

The stream is modelled as a list of chunks, each tagged with the delay (in
integer milliseconds; all durations are modelled in milliseconds, so the
source's 2.0 s / 0.2 s / 10 ms become 2000 / 200 / 10) between the start of
the `timeout(idle_timeout, receiver.next())` await and the chunk's arrival; `closes` tells whether the
channel reports end-of-stream once the chunks are exhausted (otherwise it
stays silent and only timeouts fire).  The per-chunk ANSI stripping performed
by the external `strip_ansi_escapes` crate is kept abstract as `stripFn`.
Fuel bounds the number of loop iterations; every lemma quantifies over
sufficient fuel. -/

inductive ReadErr where
  | overallTimeout
  | streamClosed
deriving DecidableEq, Repr

/-- Number of PS1-marker regex matches in the accumulated buffer
(`OUTPUT_MARKER_REGEX.find_iter(&accumulated).count()`). -/
def countMarkers (s : List Char) : Nat := (ps1Matches s).length

/-- The loop body of `read_stream_until_idle`.  State: elapsed time,
accumulated (already stripped) text, `markers_seen`, `last_count`.  A chunk
whose delay exceeds `idle` makes the idle branch fire first (breaking if the
buffer already holds a marker, else micro-sleeping 10 ms and retrying while
the chunk's remaining delay shrinks accordingly). -/
def readAux (stripFn : List Char → List Char) (overall idle : Int) (n : Nat) :
    Nat → Int → List Char → Nat → Nat → List (Int × List Char) → Bool →
    Except ReadErr (List Char)
  | 0, _, _, _, _, _, _ => .error .overallTimeout
  | fuel + 1, elapsed, acc, seen, last, evs, closes =>
    if overall < elapsed then .error .overallTimeout
    else
      match evs with
      | [] =>
        if closes then .error .streamClosed
        else if 0 < countMarkers acc then .ok acc
        else readAux stripFn overall idle n fuel (elapsed + idle + 10) acc seen last [] closes
      | (d, data) :: rest =>
        if d ≤ idle then
          let acc' := acc ++ stripFn data
          let cur := countMarkers acc'
          if last < cur then
            let seen' := seen + (cur - last)
            if n ≤ seen' then .ok acc'
            else readAux stripFn overall idle n fuel (elapsed + max d 0) acc' seen' cur rest closes
          else readAux stripFn overall idle n fuel (elapsed + max d 0) acc' seen last rest closes
        else
          if 0 < countMarkers acc then .ok acc
          else readAux stripFn overall idle n fuel (elapsed + idle + 10) acc seen last
            ((d - idle - 10, data) :: rest) closes

/-- `read_stream_until_idle(receiver, overall_timeout, idle_timeout,
short_circuit_after_n_markers)` on a stream of timed chunks. -/
def readStreamUntilIdle (stripFn : List Char → List Char) (overall idle : Int)
    (n : Nat) (fuel : Nat) (evs : List (Int × List Char)) (closes : Bool) :
    Except ReadErr (List Char) :=
  readAux stripFn overall idle n fuel 0 [] 0 0 evs closes

/-! ## The sandbox state machine (`src/lib/sandbox/mod.rs`, `types.rs`) -/

/-- `Status` (`types.rs`); `Stopped` carries only `Ok(())` in the source. -/
inductive Status where
  | created
  | started (cid : String)
  | exited (cid : String)
  | stopped
deriving DecidableEq, Repr

/-- Whether the status is one of `Started`/`Exited` (a running container). -/
def statusRunning : Status → Bool
  | .started _ => true
  | .exited _ => true
  | _ => false

/-- `CommandResult` (`types.rs`). -/
structure CommandResult where
  output : List Char
  exitCode : Int
  exited : Bool
deriving DecidableEq, Repr

/-- `CommandExecution` (`types.rs`); the timestamp is an abstract instant. -/
structure CommandExecution where
  command : List Char
  timestamp : Nat
  result : Option CommandResult
deriving DecidableEq, Repr

/-- The error kinds of `types.rs::Error` (payloads kept only where the
claims need them). -/
inductive SErr where
  | notStarted
  | alreadyStarted
  | alreadyExited
  | setupCommandsFailed (output : List Char)
  | pullImageFailed
  | stopContainerFailed
  | startContainerFailed
  | containerWriteFailed
  | containerReadFailed
  | execFailed
  | createExecFailed
  | timeoutWaitingForMarker
deriving DecidableEq, Repr

/-- The result of an operation: a normal return, an `Err`, or a Rust panic
(`expect` failure). -/
inductive Outcome (α : Type) where
  | ok (a : α)
  | err (e : SErr)
  | panicked
deriving DecidableEq, Repr

/-- Container-host effects an operation performs, in order. -/
inductive Effect where
  | inspectImage
  | pullImage
  | createContainer
  | startContainer (cid : String)
  | inspectContainer (cid : String)
  | fetchLogs (cid : String)
  | createExec (cid : String) (cmd : List Char)
  | startExec
  | inspectExec
  | attachWrite (data : List Char)
  | readStream (overall idle : Int) (nMarkers : Nat)
  | removeContainer (cid : String)
deriving DecidableEq, Repr

/-- The `Sandbox` struct (`mod.rs`).  The docker handle is external; the
stream handles are tracked by presence; the held `OwnedSemaphorePermit` is
tracked by a flag (1 permit held iff `permit = true`). -/
structure SandboxM where
  id : String
  image : String
  setupCommands : List Char
  status : Status
  permit : Bool
  hasInput : Bool
  hasOutput : Bool
  startTimeSet : Bool
  trajectory : List CommandExecution
  lastStandaloneExitCode : Option Int
deriving DecidableEq, Repr

/-- `Sandbox::new` (the UUID is taken as a parameter; its generation is
external). -/
def mkSandboxM (id image : String) (setupCommands : List Char) : SandboxM :=
  { id := id, image := image, setupCommands := setupCommands,
    status := .created, permit := false, hasInput := false, hasOutput := false,
    startTimeSet := false, trajectory := [], lastStandaloneExitCode := none }

/-- Outcome oracle for one `exec_standalone_cmd` call: whether each
container-host call succeeds, the combined stdout+stderr bytes collected
from the exec stream, and the exit code `inspect_exec` reports (`none`
models an absent exit code, on which the source's `expect` panics). -/
structure ExecEnv where
  createOk : Bool
  startOk : Bool
  startAttached : Bool
  streamOk : Bool
  output : List Char
  inspectOk : Bool
  exitCode : Option Int
deriving DecidableEq, Repr

/-- `shell::init_cmd()` = `/bin/bash -i`, flattened to the characters the
effect trace records. -/
def initCmdChars : List Char := ("/bin/bash -i").data

/-- `Sandbox::exec_standalone_cmd`. -/
def execStandaloneCmd (sb : SandboxM) (cmd : List Char) (env : ExecEnv) :
    SandboxM × List Effect × Outcome CommandResult :=
  match sb.status with
  | .started cid | .exited cid =>
    if ¬env.createOk then (sb, [.createExec cid cmd], .err .createExecFailed)
    else if ¬env.startOk then (sb, [.createExec cid cmd, .startExec], .err .createExecFailed)
    else if env.startAttached ∧ ¬env.streamOk then
      (sb, [.createExec cid cmd, .startExec], .err .containerReadFailed)
    else
      let out := if env.startAttached then env.output else []
      if ¬env.inspectOk then
        (sb, [.createExec cid cmd, .startExec, .inspectExec], .err .containerReadFailed)
      else
        match env.exitCode with
        | none => (sb, [.createExec cid cmd, .startExec, .inspectExec], .panicked)
        | some code =>
          ({ sb with lastStandaloneExitCode := some code },
           [.createExec cid cmd, .startExec, .inspectExec],
           .ok { output := out, exitCode := code, exited := false })
  | _ => (sb, [], .err .notStarted)

/-- The outcome of one `read_until_idle_after_marker` call as seen by
`exec_session_cmd` (the accumulated text is already ANSI-stripped). -/
inductive ReadOutcome where
  | ok (raw : List Char)
  | timeout
  | closed
deriving DecidableEq, Repr

/-- Whether a `ReadOutcome` is a successful read. -/
def ReadOutcome.isOk : ReadOutcome → Bool
  | .ok _ => true
  | _ => false

/-- Outcome oracle for one `exec_session_cmd` call: the submission instant,
whether each stdin write succeeds, and the outcomes of the up-to-three
stream reads (initial, after the newline nudge, after the Ctrl-D nudge). -/
structure SessEnv where
  now : Nat
  writeOk : Bool
  read1 : ReadOutcome
  nudgeWriteOk : Bool
  read2 : ReadOutcome
  eofWriteOk : Bool
  read3 : ReadOutcome
deriving DecidableEq, Repr

/-- `n_commands_hint = cmd.split('\n').count()`: the number of pieces Rust
`split` yields, i.e. the newline count plus one. -/
def nCommandsHint (cmd : List Char) : Nat := (splitOnChar '\n' cmd).length

/-- Finish a successful session read: strip markers (possibly panicking),
transition to `Exited` when the exit sentinel was seen, push the trajectory
entry with its result filled in, return the result. -/
def finishSession (sb : SandboxM) (cid : String) (cmd : List Char) (now : Nat)
    (effs : List Effect) (raw : List Char) :
    SandboxM × List Effect × Outcome CommandResult :=
  match stripMarkersAndExtractExitCode raw with
  | none => (sb, effs, .panicked)
  | some (out, code, seen) =>
    let r : CommandResult := { output := out, exitCode := code, exited := seen }
    let sb' := if seen then { sb with status := .exited cid } else sb
    ({ sb' with trajectory := sb'.trajectory ++ [{ command := cmd, timestamp := now, result := some r }] },
     effs, .ok r)

/-- `Sandbox::exec_session_cmd`.  The reads carry the parameters the source
passes: `(2000 ms, 200 ms, n_commands_hint)` for the first read and `(2000, 200, 1)`
for the recovery reads. -/
def execSessionCmd (sb : SandboxM) (cmd : List Char) (env : SessEnv) :
    SandboxM × List Effect × Outcome CommandResult :=
  match sb.status with
  | .exited _ => (sb, [], .err .alreadyExited)
  | .created => (sb, [], .err .notStarted)
  | .stopped => (sb, [], .err .notStarted)
  | .started cid =>
    if ¬sb.hasInput then (sb, [], .err .notStarted)
    else if ¬env.writeOk then
      (sb, [.attachWrite (cmd ++ ['\n'])], .err .containerWriteFailed)
    else
      let e0 : List Effect := [.attachWrite (cmd ++ ['\n'])]
      if ¬sb.hasOutput then (sb, e0, .err .notStarted)
      else
        let e1 := e0 ++ [.readStream 2000 200 (nCommandsHint cmd)]
        match env.read1 with
        | .ok raw => finishSession sb cid cmd env.now e1 raw
        | .closed => (sb, e1, .err .containerReadFailed)
        | .timeout =>
          if ¬env.nudgeWriteOk then
            (sb, e1 ++ [.attachWrite ['\n']], .err .containerWriteFailed)
          else
            let e2 := e1 ++ [.attachWrite ['\n'], .readStream 2000 200 1]
            match env.read2 with
            | .ok raw => finishSession sb cid cmd env.now e2 raw
            | .closed => (sb, e2, .err .containerReadFailed)
            | .timeout =>
              if ¬env.eofWriteOk then
                (sb, e2 ++ [.attachWrite ['\x04']], .err .containerWriteFailed)
              else
                let e3 := e2 ++ [.attachWrite ['\x04'], .readStream 2000 200 1]
                match env.read3 with
                | .ok raw => finishSession sb cid cmd env.now e3 raw
                | .closed => (sb, e3, .err .containerReadFailed)
                | .timeout => (sb, e3, .err .timeoutWaitingForMarker)

/-- `Sandbox::run_setup_commands`: nothing to do when the setup string is
empty; otherwise one standalone exec of the setup string, failing with
`SetupCommandsFailed(output)` on a non-zero exit code. -/
def runSetup (sb : SandboxM) (env : ExecEnv) : SandboxM × List Effect × Outcome Unit :=
  if sb.setupCommands.isEmpty then (sb, [], .ok ())
  else
    match execStandaloneCmd sb sb.setupCommands env with
    | (sb2, effs, .ok r) =>
      if r.exitCode ≠ 0 then (sb2, effs, .err (.setupCommandsFailed r.output))
      else (sb2, effs, .ok ())
    | (sb2, effs, .err e) => (sb2, effs, .err e)
    | (sb2, effs, .panicked) => (sb2, effs, .panicked)

/-- Outcome oracle for one `Sandbox::start` call: whether the image is
present locally, whether the pull succeeds, the container id the host mints,
whether create/start/inspect succeed and the container reaches `running`,
whether fetching diagnostic logs succeeds, the oracle of the setup
standalone exec, and the outcomes of the attach/configure steps. -/
structure StartEnv where
  imagePresent : Bool
  pullOk : Bool
  createOk : Bool
  cid : String
  startOk : Bool
  inspectOk : Bool
  running : Bool
  logsOk : Bool
  setup : ExecEnv
  attachCreateOk : Bool
  attachStartOk : Bool
  attachAttached : Bool
  confWriteOk : Bool
  confRead : ReadOutcome
deriving DecidableEq, Repr

/-- `Sandbox::start`.  The caller's `OwnedSemaphorePermit` argument is
stored only at the very end of the success path; on every error return it is
dropped, i.e. released — in the model `permit := true` is set only on full
success.  Note that `create_and_start_container` sets the status to
`Started(cid)` as soon as the container is created, and no error path
reverts it or removes the container.  The `create_exec`/`start_exec` errors
of the attach phase surface as `PullImageFailed` because `types.rs` converts
raw host errors via `#[from]`. -/
def startSb (sb : SandboxM) (env : StartEnv) :
    SandboxM × List Effect × Outcome Unit :=
  match sb.status with
  | .created =>
    let ePull : List Effect :=
      if env.imagePresent then [.inspectImage] else [.inspectImage, .pullImage]
    if ¬env.imagePresent ∧ ¬env.pullOk then (sb, ePull, .err .pullImageFailed)
    else if ¬env.createOk then
      (sb, ePull ++ [.createContainer], .err .startContainerFailed)
    else
      let sb1 := { sb with status := Status.started env.cid }
      let e1 := ePull ++ [.createContainer]
      if ¬env.startOk then
        (sb1, e1 ++ [.startContainer env.cid], .err .startContainerFailed)
      else
        let e2 := e1 ++ [.startContainer env.cid, .inspectContainer env.cid]
        if ¬env.inspectOk then (sb1, e2, .err .startContainerFailed)
        else if ¬env.running then
          if ¬env.logsOk then
            (sb1, e2 ++ [.fetchLogs env.cid], .err .containerReadFailed)
          else
            (sb1, e2 ++ [.fetchLogs env.cid], .err .startContainerFailed)
        else
          match runSetup sb1 env.setup with
          | (sb2, effs, Outcome.ok _) =>
            let e3 := e2 ++ effs
            if ¬env.attachCreateOk then
              (sb2, e3 ++ [.createExec env.cid initCmdChars], .err .pullImageFailed)
            else if ¬env.attachStartOk then
              (sb2, e3 ++ [.createExec env.cid initCmdChars, .startExec], .err .pullImageFailed)
            else if ¬env.attachAttached then
              (sb2, e3 ++ [.createExec env.cid initCmdChars, .startExec], .err .startContainerFailed)
            else
              let sb3 := { sb2 with hasInput := true, hasOutput := true }
              let e4 := e3 ++ [.createExec env.cid initCmdChars, .startExec, .attachWrite CONF_CMD.data]
              if ¬env.confWriteOk then (sb3, e4, .err .containerWriteFailed)
              else
                let e5 := e4 ++ [.readStream 2000 100 1]
                match env.confRead with
                | .ok _ =>
                  ({ sb3 with startTimeSet := true, permit := true }, e5, .ok ())
                | .timeout => (sb3, e5, .err .timeoutWaitingForMarker)
                | .closed => (sb3, e5, .err .containerReadFailed)
          | (sb2, effs, Outcome.err e) => (sb2, e2 ++ effs, .err e)
          | (sb2, effs, Outcome.panicked) => (sb2, e2 ++ effs, .panicked)
  | _ => (sb, [], .err .alreadyStarted)

/-- `Sandbox::stop`: the held permit is taken (released) first,
unconditionally; then a running container is force-removed (the removal
result is ignored), the status becomes `Stopped` and the streams are
dropped; `Created`/`Stopped` sandboxes report `NotStarted`. -/
def stopSb (sb : SandboxM) : SandboxM × List Effect × Outcome Unit :=
  let sb0 := { sb with permit := false }
  match sb0.status with
  | .stopped => (sb0, [], .err .notStarted)
  | .created => (sb0, [], .err .notStarted)
  | .started cid | .exited cid =>
    ({ sb0 with status := .stopped, hasInput := false, hasOutput := false },
     [.removeContainer cid], .ok ())

/-- One sandbox operation together with its outcome oracle. -/
inductive Op where
  | start (env : StartEnv)
  | execSession (cmd : List Char) (env : SessEnv)
  | execStandalone (cmd : List Char) (env : ExecEnv)
  | stop
deriving DecidableEq, Repr

/-- Apply one operation to the sandbox state (results and effects are
dropped; the state component is what the invariants quantify over). -/
def stepSb (sb : SandboxM) : Op → SandboxM
  | .start env => (startSb sb env).1
  | .execSession cmd env => (execSessionCmd sb cmd env).1
  | .execStandalone cmd env => (execStandaloneCmd sb cmd env).1
  | .stop => (stopSb sb).1

/-- Run a sequence of operations. -/
def runOps (sb : SandboxM) (ops : List Op) : SandboxM := ops.foldl stepSb sb

/-- The permit/status relation of §8: one permit held iff the status is
`Started` or `Exited`. -/
def permitInv (sb : SandboxM) : Prop := sb.permit = statusRunning sb.status

/-! ## The `start_sandbox` request handler (`src/lib/http.rs`) -/

/-- Process-wide server state: available admission permits and the ids
present in the registry. -/
structure ServerState where
  permits : Nat
  registry : List String
deriving DecidableEq, Repr

/-- Steps the `start_sandbox` handler performs, in order. -/
inductive HEv where
  | acquirePermit
  | lookupSandbox (id : String)
  | releasePermit
  | callStart
deriving DecidableEq, Repr

/-- Handler result: blocked awaiting a permit, 404, or proceeding into
`Sandbox::start` with the permit. -/
inductive HttpOutcome where
  | blocked
  | notFound
  | proceeded
deriving DecidableEq, Repr

/-- `start_sandbox`: acquire an owned permit from the semaphore first (this
suspends while no permit is available), only then look the id up in the
registry; a missing id returns 404, dropping — releasing — the permit. -/
def startSandboxHandler (st : ServerState) (id : String) : List HEv × HttpOutcome :=
  if st.permits = 0 then ([], .blocked)
  else if id ∈ st.registry then
    ([.acquirePermit, .lookupSandbox id, .callStart], .proceeded)
  else
    ([.acquirePermit, .lookupSandbox id, .releasePermit], .notFound)

/-! ## Derived definitions used by the claims -/

/-- The PS1 marker a given sandbox's shell is configured with and its output
is matched against.  `attach_and_configure_shell` writes the process-constant
`shell::CONF_CMD`, and `io.rs` matches against the process-constant
`OUTPUT_MARKER_REGEX`, so the marker does not depend on the sandbox. -/
def ps1MarkerOf (_sb : SandboxM) : String := PS1_MARKER

/-- The PS2 marker used for a given sandbox (process-constant, see
`ps1MarkerOf`). -/
def ps2MarkerOf (_sb : SandboxM) : String := PS2_MARKER

/-- The exit-sentinel marker used for a given sandbox (process-constant, see
`ps1MarkerOf`). -/
def exitMarkerOf (_sb : SandboxM) : String := EXIT_MARKER

/-- The shell configuration line written to a given sandbox's shell after
attach: the process-constant `CONF_CMD`. -/
def sandboxConfCmd (_sb : SandboxM) : String := CONF_CMD

/-- Whether a standalone-exec oracle makes every container-host call succeed
and report exit code 0. -/
def execEnvOkB (e : ExecEnv) : Bool :=
  e.createOk && e.startOk && (!e.startAttached || e.streamOk) && e.inspectOk
    && (e.exitCode == some 0)

/-- Whether a start oracle drives `Sandbox::start` through its full success
path. -/
def startEnvSucceedsB (e : StartEnv) : Bool :=
  (e.imagePresent || e.pullOk) && e.createOk && e.startOk && e.inspectOk
    && e.running && execEnvOkB e.setup && e.attachCreateOk && e.attachStartOk
    && e.attachAttached && e.confWriteOk && e.confRead.isOk

/-- Whether a start oracle makes `Sandbox::start` fail before the container
is created (image absent and pull failing, or container creation failing). -/
def startEnvFailsBeforeCreateB (e : StartEnv) : Bool :=
  (!e.imagePresent && !e.pullOk) || !e.createOk

/-- An operation that either is not a `start`, or is a `start` that fully
succeeds or fails before its container is created — i.e. anything except a
`start` call that errors after creating its container. -/
def goodOpB : Op → Bool
  | .start e => startEnvSucceedsB e || startEnvFailsBeforeCreateB e
  | _ => true

/-- Whether an effect list contains a container removal. -/
def hasRemove (l : List Effect) : Bool :=
  l.any fun e => match e with | .removeContainer _ => true | _ => false

/-- A standalone-exec oracle with every call succeeding and exit code 0. -/
def execEnvTrivial : ExecEnv :=
  { createOk := true, startOk := true, startAttached := true, streamOk := true,
    output := [], inspectOk := true, exitCode := some 0 }

/-- A start oracle that fails at the attach phase (`create_exec` for the
interactive shell errors), i.e. after the container was created. -/
def envAttachFail : StartEnv :=
  { imagePresent := true, pullOk := true, createOk := true, cid := "c",
    startOk := true, inspectOk := true, running := true, logsOk := true,
    setup := execEnvTrivial, attachCreateOk := false, attachStartOk := true,
    attachAttached := true, confWriteOk := true, confRead := .ok [] }

/-- A start oracle whose setup standalone exec exits with code 1 and output
`boom`; everything else succeeds. -/
def envSetupFail : StartEnv :=
  { envAttachFail with
    setup := { execEnvTrivial with output := ("boom").data, exitCode := some 1 },
    attachCreateOk := true }

/-- A fully successful start oracle. -/
def envStartOk : StartEnv := { envAttachFail with attachCreateOk := true }

/-- A sandbox in the `Started` state with both streams attached, as left by a
successful `start`. -/
def sbStartedW : SandboxM :=
  { mkSandboxM "w" "ubuntu:latest" [] with
    status := .started "c", permit := true, hasInput := true, hasOutput := true,
    startTimeSet := true }

/-- A session oracle whose first read succeeds with a prompt-terminated
buffer. -/
def sessEnvOkW : SessEnv :=
  { now := 5, writeOk := true, read1 := .ok (("x" ++ PS1_MARKER ++ "0:").data),
    nudgeWriteOk := true, read2 := .timeout, eofWriteOk := true, read3 := .timeout }

/-- A session oracle whose stdin write fails. -/
def sessEnvWriteFail : SessEnv := { sessEnvOkW with writeOk := false }

/-- Input for claim C2's counterexample: an overflowing prompt exit code
followed by a well-formed one; the source parses (and panics on) every
match, the specification text only reads the last one. -/
def inC2 : List Char :=
  (PS2_MARKER ++ PS1_MARKER ++ "99999999999999999999:" ++ PS1_MARKER ++ "0:").data

/-- Input for claim C8's counterexample: a single prompt whose captured
digits are `i64::MAX + 1`. -/
def inC8 : List Char := (PS1_MARKER ++ "9223372036854775808:").data

/-- Input for claim C9's counterexample: output text containing a carriage
return, terminated by a prompt with exit code 0. -/
def inC9 : List Char := ("abc" ++ "\x0d" ++ "def\n" ++ PS1_MARKER ++ "0:").data

/-- The session output the source produces on `inC9`. -/
def outC9 : List Char := ("abc" ++ "\x0d" ++ "def").data

/-! ## Helper lemmas -/

theorem seqPre_false_of_head_ne {p c : Char} {ps cs : List Char} (h : p ≠ c) :
    seqPre (p :: ps) (c :: cs) = false := by
  simp [seqPre, beq_eq_false_iff_ne.mpr h]

theorem seqPre_marker_false {pat : List Char} {c : Char} {t : List Char}
    (hp : pat.head? = some '#') (hc : c ≠ '#') : seqPre pat (c :: t) = false := by
  cases pat with
  | nil => simp at hp
  | cons p ps =>
    have hpc : p = '#' := by simpa using hp
    subst hpc
    exact seqPre_false_of_head_ne (fun h => hc h.symm)

theorem removeAll_cons {pat : List Char} {c : Char} {t : List Char}
    (hp : pat.head? = some '#') (hc : c ≠ '#') :
    removeAll pat (c :: t) = c :: removeAll pat t := by
  simp [removeAll, removeAllAux, seqPre_marker_false hp hc]

theorem firstIdxOf_cons {pat : List Char} {c : Char} {t : List Char}
    (hp : pat.head? = some '#') (hc : c ≠ '#') :
    firstIdxOf pat (c :: t) = (firstIdxOf pat t).map (· + 1) := by
  simp [firstIdxOf, seqPre_marker_false hp hc]

theorem ps1MatchAt_cons {c : Char} {t : List Char} (hc : c ≠ '#') :
    ps1MatchAt (c :: t) = none := by
  have hp : ps1M.head? = some '#' := by decide
  simp [ps1MatchAt, seqPre_marker_false hp hc]

theorem ps1Scan_cons {c : Char} {t : List Char} (hc : c ≠ '#') :
    ps1Scan (c :: t) = ((ps1Scan t).1, c :: (ps1Scan t).2) := by
  simp [ps1Scan, ps1ScanAux, ps1MatchAt_cons hc]

/-- Each regex match captures a nonempty run of decimal digits. -/
theorem ps1MatchAt_digits {s t d a : List Char}
    (h : ps1MatchAt s = some (t, d, a)) :
    d.isEmpty = false ∧ d.all Char.isDigit = true := by
  unfold ps1MatchAt at h
  split at h
  · dsimp only at h
    split at h
    · split at h
      · exact absurd h (by simp)
      · rename_i hne
        simp only [Option.some.injEq, Prod.mk.injEq] at h
        obtain ⟨-, hd, -⟩ := h
        subst hd
        refine ⟨by simpa using hne, ?_⟩
        simp only [List.all_eq_true]
        intro x hx
        exact List.mem_takeWhile_imp hx
    · exact absurd h (by simp)
  · exact absurd h (by simp)

theorem ps1ScanAux_digits :
    ∀ (fuel : Nat) (s t d : List Char), (t, d) ∈ (ps1ScanAux fuel s).1 →
      d.isEmpty = false ∧ d.all Char.isDigit = true := by
  intro fuel
  induction fuel with
  | zero => intro s t d h; simp [ps1ScanAux] at h
  | succ fuel ih =>
    intro s t d h
    cases s with
    | nil => simp [ps1ScanAux] at h
    | cons c rest =>
      rw [ps1ScanAux] at h
      cases hm : ps1MatchAt (c :: rest) with
      | none =>
        rw [hm] at h
        exact ih rest t d h
      | some m =>
        obtain ⟨txt, digits, after⟩ := m
        rw [hm] at h
        simp only [List.mem_cons] at h
        rcases h with h | h
        · obtain ⟨h1, h2⟩ := Prod.mk.injEq .. ▸ h
          subst h2
          exact ps1MatchAt_digits hm
        · exact ih after t d h

theorem ps1Matches_digits {s t d : List Char} (h : (t, d) ∈ ps1Matches s) :
    d.isEmpty = false ∧ d.all Char.isDigit = true :=
  ps1ScanAux_digits s.length s t d h

/-- `optionTraverse` succeeds when `f` succeeds on every element. -/
theorem optionTraverse_isSome {f : α → Option β} :
    ∀ {ms : List α}, (∀ a ∈ ms, (f a).isSome) → ∃ l, optionTraverse f ms = some l := by
  intro ms
  induction ms with
  | nil => intro _; exact ⟨[], rfl⟩
  | cons a as ih =>
    intro h
    obtain ⟨b, hb⟩ := Option.isSome_iff_exists.mp (h a (by simp))
    obtain ⟨l, hl⟩ := ih (fun x hx => h x (by simp [hx]))
    exact ⟨b :: l, by simp [optionTraverse, hb, hl]⟩

/-- When the traversal succeeds, its last element is `f` of the last input
(with matching defaults when the list is empty). -/
theorem optionTraverse_getLastD {f : α → Option β} (d : β) :
    ∀ (ms : List α) (l : List β), optionTraverse f ms = some l →
      (match ms.getLast? with
       | some a => f a
       | none => some d) = some (l.getLastD d) := by
  intro ms
  induction ms with
  | nil =>
    intro l hl
    simp only [optionTraverse, Option.some.injEq] at hl
    subst hl
    rfl
  | cons a as ih =>
    intro l hl
    rw [optionTraverse] at hl
    cases hfa : f a with
    | none => rw [hfa] at hl; exact absurd hl (by simp)
    | some b =>
      rw [hfa] at hl
      cases htr : optionTraverse f as with
      | none => rw [htr] at hl; exact absurd hl (by simp)
      | some bs =>
        rw [htr] at hl
        simp only [Option.some.injEq] at hl
        subst hl
        cases as with
        | nil =>
          simp only [optionTraverse, Option.some.injEq] at htr
          subst htr
          simpa using hfa
        | cons a' as' =>
          have step := ih bs htr
          have hbs : bs ≠ [] := by
            rw [optionTraverse] at htr
            cases hfa2 : f a' <;> rw [hfa2] at htr
            · exact absurd htr (by simp)
            · cases htr2 : optionTraverse f as' <;> rw [htr2] at htr
              · exact absurd htr (by simp)
              · simp only [Option.some.injEq] at htr
                subst htr
                simp
          obtain ⟨x, xs, rfl⟩ : ∃ x xs, bs = x :: xs := by
            cases bs with
            | nil => exact absurd rfl hbs
            | cons x xs => exact ⟨x, xs, rfl⟩
          rw [List.getLast?_cons_cons]
          have h1 : (b :: x :: xs).getLastD d = (x :: xs).getLastD d := by
            rw [List.getLastD_eq_getLast?, List.getLastD_eq_getLast?,
              List.getLast?_cons_cons]
          rw [h1]
          exact step

/-! ## State-machine helper lemmas -/

theorem splitOnChar_ne_nil (sep : Char) : ∀ s : List Char, splitOnChar sep s ≠ [] := by
  intro s
  cases s with
  | nil => simp [splitOnChar]
  | cons c rest =>
    by_cases h : c = sep
    · simp [splitOnChar, h]
    · simp only [splitOnChar, h, if_false]
      cases splitOnChar sep rest <;> simp

theorem splitOnChar_length (sep : Char) :
    ∀ s : List Char, (splitOnChar sep s).length = s.count sep + 1 := by
  intro s
  induction s with
  | nil => rfl
  | cons c rest ih =>
    by_cases h : c = sep
    · subst h
      simp [splitOnChar, List.count_cons, ih]
    · have hsp := splitOnChar_ne_nil sep rest
      cases hrec : splitOnChar sep rest with
      | nil => exact absurd hrec hsp
      | cons p ps =>
        rw [hrec] at ih
        simp only [splitOnChar, h, if_false, hrec]
        simp only [List.length_cons] at ih ⊢
        simp [List.count_cons, h, ih]

theorem nCommandsHint_eq (cmd : List Char) :
    nCommandsHint cmd = cmd.count '\n' + 1 := by
  simpa [nCommandsHint] using splitOnChar_length '\n' cmd

/-- `exec_standalone_cmd` either leaves the sandbox unchanged, or — on the
success path only — updates only `last_standalone_exit_code`. -/
theorem execStandalone_cases (sb : SandboxM) (cmd : List Char) (env : ExecEnv) :
    (execStandaloneCmd sb cmd env).1 = sb
      ∨ ∃ c, (execStandaloneCmd sb cmd env).1
          = { sb with lastStandaloneExitCode := some c } := by
  unfold execStandaloneCmd
  cases sb.status with
  | created => exact Or.inl rfl
  | stopped => exact Or.inl rfl
  | started c =>
    dsimp only
    split
    · exact Or.inl rfl
    · split
      · exact Or.inl rfl
      · split
        · exact Or.inl rfl
        · split
          · exact Or.inl rfl
          · cases env.exitCode with
            | none => exact Or.inl rfl
            | some code => exact Or.inr ⟨code, rfl⟩
  | exited c =>
    dsimp only
    split
    · exact Or.inl rfl
    · split
      · exact Or.inl rfl
      · split
        · exact Or.inl rfl
        · split
          · exact Or.inl rfl
          · cases env.exitCode with
            | none => exact Or.inl rfl
            | some code => exact Or.inr ⟨code, rfl⟩

theorem execStandalone_frame (sb : SandboxM) (cmd : List Char) (env : ExecEnv) :
    (execStandaloneCmd sb cmd env).1.status = sb.status
      ∧ (execStandaloneCmd sb cmd env).1.trajectory = sb.trajectory
      ∧ (execStandaloneCmd sb cmd env).1.permit = sb.permit
      ∧ (execStandaloneCmd sb cmd env).1.hasInput = sb.hasInput
      ∧ (execStandaloneCmd sb cmd env).1.hasOutput = sb.hasOutput
      ∧ (execStandaloneCmd sb cmd env).1.setupCommands = sb.setupCommands
      ∧ (execStandaloneCmd sb cmd env).1.startTimeSet = sb.startTimeSet := by
  rcases execStandalone_cases sb cmd env with h | ⟨c, h⟩ <;> rw [h] <;>
    exact ⟨rfl, rfl, rfl, rfl, rfl, rfl, rfl⟩

theorem execStandalone_noRemove (sb : SandboxM) (cmd : List Char) (env : ExecEnv) :
    hasRemove (execStandaloneCmd sb cmd env).2.1 = false := by
  unfold execStandaloneCmd
  cases sb.status with
  | created => rfl
  | stopped => rfl
  | started c =>
    dsimp only
    split
    · rfl
    · split
      · rfl
      · split
        · rfl
        · split
          · rfl
          · cases env.exitCode <;> rfl
  | exited c =>
    dsimp only
    split
    · rfl
    · split
      · rfl
      · split
        · rfl
        · split
          · rfl
          · cases env.exitCode <;> rfl

/-- On a running sandbox with a fully successful oracle, `exec_standalone_cmd`
returns exit code 0 and records it. -/
theorem execStandalone_ok {sb : SandboxM} {cid : String} {cmd : List Char}
    {env : ExecEnv} (hs : sb.status = .started cid) (he : execEnvOkB env = true) :
    execStandaloneCmd sb cmd env
      = ({ sb with lastStandaloneExitCode := some 0 },
         [.createExec cid cmd, .startExec, .inspectExec],
         .ok { output := if env.startAttached then env.output else [],
               exitCode := 0, exited := false }) := by
  simp only [execEnvOkB, Bool.and_eq_true, Bool.or_eq_true, Bool.not_eq_true',
    beq_iff_eq] at he
  obtain ⟨⟨⟨⟨h1, h2⟩, h3⟩, h4⟩, h5⟩ := he
  unfold execStandaloneCmd
  rw [hs]
  dsimp only
  rcases h3 with h3 | h3 <;> simp [h1, h2, h3, h4, h5]

/-- `run_setup_commands` only ever touches `last_standalone_exit_code` and
performs no container removal. -/
theorem runSetup_frame (sb : SandboxM) (env : ExecEnv) :
    (runSetup sb env).1.status = sb.status
      ∧ (runSetup sb env).1.trajectory = sb.trajectory
      ∧ (runSetup sb env).1.permit = sb.permit
      ∧ (runSetup sb env).1.hasInput = sb.hasInput
      ∧ (runSetup sb env).1.hasOutput = sb.hasOutput
      ∧ (runSetup sb env).1.setupCommands = sb.setupCommands
      ∧ (runSetup sb env).1.startTimeSet = sb.startTimeSet
      ∧ hasRemove (runSetup sb env).2.1 = false := by
  unfold runSetup
  split
  · exact ⟨rfl, rfl, rfl, rfl, rfl, rfl, rfl, rfl⟩
  · have hfr := execStandalone_frame sb sb.setupCommands env
    have hnr := execStandalone_noRemove sb sb.setupCommands env
    rcases hE : execStandaloneCmd sb sb.setupCommands env with ⟨sb2, effs2, out2⟩
    rw [hE] at hfr hnr
    obtain ⟨f1, f2, f3, f4, f5, f6, f7⟩ := hfr
    cases out2 with
    | ok r =>
      dsimp only
      split <;> exact ⟨f1, f2, f3, f4, f5, f6, f7, hnr⟩
    | err e => exact ⟨f1, f2, f3, f4, f5, f6, f7, hnr⟩
    | panicked => exact ⟨f1, f2, f3, f4, f5, f6, f7, hnr⟩

/-- On a started sandbox with a fully successful setup oracle,
`run_setup_commands` returns `Ok`. -/
theorem runSetup_ok {sb : SandboxM} {cid : String} {env : ExecEnv}
    (hs : sb.status = .started cid) (he : execEnvOkB env = true) :
    (runSetup sb env).2.2 = .ok () := by
  unfold runSetup
  split
  · rfl
  · rw [execStandalone_ok hs he]
    simp

theorem startSb_not_created {sb : SandboxM} {env : StartEnv}
    (h : sb.status ≠ .created) :
    startSb sb env = (sb, [], .err .alreadyStarted) := by
  unfold startSb
  cases hs : sb.status with
  | created => exact absurd hs h
  | started c => rfl
  | exited c => rfl
  | stopped => rfl

theorem stopSb_state (sb : SandboxM) :
    (stopSb sb).1.permit = false
      ∧ statusRunning (stopSb sb).1.status = false
      ∧ (stopSb sb).1.trajectory = sb.trajectory := by
  unfold stopSb
  cases hs : sb.status <;> exact ⟨rfl, rfl, rfl⟩

/-- `finishSession` returns the effect list it is given. -/
theorem finishSession_effs (sb : SandboxM) (cid : String) (cmd : List Char)
    (now : Nat) (effs : List Effect) (raw : List Char) :
    (finishSession sb cid cmd now effs raw).2.1 = effs := by
  unfold finishSession
  cases stripMarkersAndExtractExitCode raw with
  | none => rfl
  | some r => rcases r with ⟨out, code, seen⟩; rfl

/-- `hasRemove` distributes over append. -/
theorem hasRemove_append (l1 l2 : List Effect) :
    hasRemove (l1 ++ l2) = (hasRemove l1 || hasRemove l2) := by
  simp [hasRemove, List.any_append]

/-- Branch classification of `Sandbox::start` from `Created`: the trajectory
is never touched, no container removal is ever attempted, and the run either
(i) fails before the container is created, leaving the sandbox unchanged,
(ii) fails after creation, leaving the status `Started(cid)` with the permit
field untouched (the caller's permit is dropped), or (iii) fully succeeds,
holding the permit. -/
theorem startSb_master {sb : SandboxM} {env : StartEnv} (hs : sb.status = .created) :
    (startSb sb env).1.trajectory = sb.trajectory
      ∧ hasRemove (startSb sb env).2.1 = false
      ∧ ((((env.imagePresent = false ∧ env.pullOk = false) ∨ env.createOk = false)
            ∧ (startSb sb env).1 = sb ∧ (startSb sb env).2.2 ≠ .ok ())
        ∨ ((startSb sb env).1.status = .started env.cid
            ∧ (startSb sb env).1.permit = sb.permit
            ∧ (startSb sb env).2.2 ≠ .ok ())
        ∨ ((startSb sb env).1.status = .started env.cid
            ∧ (startSb sb env).1.permit = true
            ∧ (startSb sb env).2.2 = .ok ())) := by
  have hep : hasRemove
      (if env.imagePresent then [Effect.inspectImage]
       else [Effect.inspectImage, Effect.pullImage]) = false := by
    split <;> rfl
  rcases hR : startSb sb env with ⟨sb1, effs1, out1⟩
  dsimp only
  unfold startSb at hR
  rw [hs] at hR
  dsimp only at hR
  by_cases h1 : (¬env.imagePresent ∧ ¬env.pullOk : Prop)
  · rw [if_pos h1] at hR
    simp only [Prod.mk.injEq] at hR
    obtain ⟨rfl, rfl, rfl⟩ := hR
    exact ⟨rfl, hep,
      Or.inl ⟨Or.inl ⟨Bool.eq_false_iff.mpr h1.1, Bool.eq_false_iff.mpr h1.2⟩,
        rfl, by simp⟩⟩
  · rw [if_neg h1] at hR
    by_cases h2 : (¬env.createOk : Prop)
    · rw [if_pos h2] at hR
      simp only [Prod.mk.injEq] at hR
      obtain ⟨rfl, rfl, rfl⟩ := hR
      refine ⟨rfl, ?_, Or.inl ⟨Or.inr (Bool.eq_false_iff.mpr h2), rfl, by simp⟩⟩
      simp only [hasRemove_append]
      rw [hep]
      rfl
    · rw [if_neg h2] at hR
      try dsimp only at hR
      by_cases h3 : (¬env.startOk : Prop)
      · rw [if_pos h3] at hR
        simp only [Prod.mk.injEq] at hR
        obtain ⟨rfl, rfl, rfl⟩ := hR
        refine ⟨rfl, ?_, Or.inr (Or.inl ⟨rfl, rfl, by simp⟩)⟩
        simp only [hasRemove_append]
        rw [hep]
        rfl
      · rw [if_neg h3] at hR
        by_cases h4 : (¬env.inspectOk : Prop)
        · rw [if_pos h4] at hR
          simp only [Prod.mk.injEq] at hR
          obtain ⟨rfl, rfl, rfl⟩ := hR
          refine ⟨rfl, ?_, Or.inr (Or.inl ⟨rfl, rfl, by simp⟩)⟩
          simp only [hasRemove_append]
          rw [hep]
          rfl
        · rw [if_neg h4] at hR
          by_cases h5 : (¬env.running : Prop)
          · rw [if_pos h5] at hR
            split at hR <;>
              · simp only [Prod.mk.injEq] at hR
                obtain ⟨rfl, rfl, rfl⟩ := hR
                refine ⟨rfl, ?_, Or.inr (Or.inl ⟨rfl, rfl, by simp⟩)⟩
                simp only [hasRemove_append]
                rw [hep]
                rfl
          · rw [if_neg h5] at hR
            have hfr := runSetup_frame
              { sb with status := Status.started env.cid } env.setup
            rcases hRS : runSetup { sb with status := Status.started env.cid }
              env.setup with ⟨sb2, effs2, out2⟩
            rw [hRS] at hR hfr
            obtain ⟨f1, f2, f3, f4, f5, f6, f7, hnr⟩ := hfr
            cases out2 with
            | err e =>
              simp only [Prod.mk.injEq] at hR
              obtain ⟨rfl, rfl, rfl⟩ := hR
              refine ⟨f2, ?_, Or.inr (Or.inl ⟨f1, f3, by simp⟩)⟩
              simp only [hasRemove_append]
              rw [hep, hnr]
              rfl
            | panicked =>
              simp only [Prod.mk.injEq] at hR
              obtain ⟨rfl, rfl, rfl⟩ := hR
              refine ⟨f2, ?_, Or.inr (Or.inl ⟨f1, f3, by simp⟩)⟩
              simp only [hasRemove_append]
              rw [hep, hnr]
              rfl
            | ok u =>
              try dsimp only at hR
              by_cases h6 : (¬env.attachCreateOk : Prop)
              · rw [if_pos h6] at hR
                simp only [Prod.mk.injEq] at hR
                obtain ⟨rfl, rfl, rfl⟩ := hR
                refine ⟨f2, ?_, Or.inr (Or.inl ⟨f1, f3, by simp⟩)⟩
                simp only [hasRemove_append]
                rw [hep, hnr]
                rfl
              · rw [if_neg h6] at hR
                by_cases h7 : (¬env.attachStartOk : Prop)
                · rw [if_pos h7] at hR
                  simp only [Prod.mk.injEq] at hR
                  obtain ⟨rfl, rfl, rfl⟩ := hR
                  refine ⟨f2, ?_, Or.inr (Or.inl ⟨f1, f3, by simp⟩)⟩
                  simp only [hasRemove_append]
                  rw [hep, hnr]
                  rfl
                · rw [if_neg h7] at hR
                  by_cases h8 : (¬env.attachAttached : Prop)
                  · rw [if_pos h8] at hR
                    simp only [Prod.mk.injEq] at hR
                    obtain ⟨rfl, rfl, rfl⟩ := hR
                    refine ⟨f2, ?_, Or.inr (Or.inl ⟨f1, f3, by simp⟩)⟩
                    simp only [hasRemove_append]
                    rw [hep, hnr]
                    rfl
                  · rw [if_neg h8] at hR
                    try dsimp only at hR
                    by_cases h9 : (¬env.confWriteOk : Prop)
                    · rw [if_pos h9] at hR
                      simp only [Prod.mk.injEq] at hR
                      obtain ⟨rfl, rfl, rfl⟩ := hR
                      refine ⟨f2, ?_, Or.inr (Or.inl ⟨f1, f3, by simp⟩)⟩
                      simp only [hasRemove_append]
                      rw [hep, hnr]
                      rfl
                    · rw [if_neg h9] at hR
                      cases hcr : env.confRead with
                      | ok s =>
                        rw [hcr] at hR
                        try dsimp only at hR
                        simp only [Prod.mk.injEq] at hR
                        obtain ⟨rfl, rfl, rfl⟩ := hR
                        refine ⟨f2, ?_, Or.inr (Or.inr ⟨f1, rfl, by simp⟩)⟩
                        simp only [hasRemove_append]
                        rw [hep, hnr]
                        rfl
                      | timeout =>
                        rw [hcr] at hR
                        try dsimp only at hR
                        simp only [Prod.mk.injEq] at hR
                        obtain ⟨rfl, rfl, rfl⟩ := hR
                        refine ⟨f2, ?_, Or.inr (Or.inl ⟨f1, f3, by simp⟩)⟩
                        simp only [hasRemove_append]
                        rw [hep, hnr]
                        rfl
                      | closed =>
                        rw [hcr] at hR
                        try dsimp only at hR
                        simp only [Prod.mk.injEq] at hR
                        obtain ⟨rfl, rfl, rfl⟩ := hR
                        refine ⟨f2, ?_, Or.inr (Or.inl ⟨f1, f3, by simp⟩)⟩
                        simp only [hasRemove_append]
                        rw [hep, hnr]
                        rfl

/-- On a full-success oracle, `Sandbox::start` succeeds, holds the permit and
is `Started(cid)`. -/
theorem startSb_success {sb : SandboxM} {env : StartEnv} (hs : sb.status = .created)
    (he : startEnvSucceedsB env = true) :
    (startSb sb env).1.permit = true
      ∧ (startSb sb env).1.status = .started env.cid
      ∧ (startSb sb env).2.2 = .ok () := by
  simp only [startEnvSucceedsB, Bool.and_eq_true, Bool.or_eq_true] at he
  obtain ⟨⟨⟨⟨⟨⟨⟨⟨⟨⟨hpull, hcr⟩, hst⟩, hin⟩, hrun⟩, hsu⟩, hac⟩, has2⟩, haa⟩, hcw⟩, hcrd⟩ := he
  have hsetup : (runSetup { sb with status := Status.started env.cid } env.setup).2.2
      = .ok () := runSetup_ok rfl hsu
  have hfr := runSetup_frame { sb with status := Status.started env.cid } env.setup
  rcases hRS : runSetup { sb with status := Status.started env.cid } env.setup
    with ⟨sb2, effs2, out2⟩
  rw [hRS] at hsetup hfr
  dsimp only at hsetup
  subst hsetup
  obtain ⟨f1, f2, f3, f4, f5, f6, f7, -⟩ := hfr
  obtain ⟨s, hcs⟩ : ∃ s, env.confRead = .ok s := by
    cases hcr2 : env.confRead
    · exact ⟨_, rfl⟩
    · rw [hcr2] at hcrd; simp [ReadOutcome.isOk] at hcrd
    · rw [hcr2] at hcrd; simp [ReadOutcome.isOk] at hcrd
  unfold startSb
  rw [hs]
  dsimp only
  rw [if_neg (by rcases hpull with h | h <;> simp [h])]
  rw [if_neg (by simp [hcr])]
  rw [if_neg (by simp [hst])]
  rw [if_neg (by simp [hin])]
  rw [if_neg (by simp [hrun])]
  rw [hRS]
  dsimp only
  rw [if_neg (by simp [hac])]
  rw [if_neg (by simp [has2])]
  rw [if_neg (by simp [haa])]
  rw [if_neg (by simp [hcw])]
  rw [hcs]
  exact ⟨rfl, by simpa using f1, rfl⟩

/-- `finishSession` preserves the permit and the running statuses, and either
returns `Ok r` having appended exactly the one entry for the command (with
its result filled in), or fails leaving the sandbox unchanged. -/
theorem finishSession_master {sb : SandboxM} {cid : String} {cmd : List Char}
    {now : Nat} {effs : List Effect} {raw : List Char}
    (hs : sb.status = .started cid) :
    (finishSession sb cid cmd now effs raw).1.permit = sb.permit
      ∧ statusRunning (finishSession sb cid cmd now effs raw).1.status = true
      ∧ (finishSession sb cid cmd now effs raw).1.lastStandaloneExitCode
          = sb.lastStandaloneExitCode
      ∧ ((∃ r, (finishSession sb cid cmd now effs raw).2.2 = .ok r
            ∧ (finishSession sb cid cmd now effs raw).1.trajectory
                = sb.trajectory
                    ++ [{ command := cmd, timestamp := now, result := some r }])
        ∨ ((∀ r, (finishSession sb cid cmd now effs raw).2.2 ≠ .ok r)
            ∧ (finishSession sb cid cmd now effs raw).1 = sb)) := by
  unfold finishSession
  cases hstrip : stripMarkersAndExtractExitCode raw with
  | none =>
    exact ⟨rfl, by simp [hs, statusRunning], rfl, Or.inr ⟨by simp, rfl⟩⟩
  | some r3 =>
    rcases r3 with ⟨out3, code3, seen3⟩
    dsimp only
    cases seen3
    · refine ⟨by simp, ?_, by simp, Or.inl ⟨_, rfl, by simp⟩⟩
      simp [hs, statusRunning]
    · refine ⟨by simp, ?_, by simp, Or.inl ⟨_, rfl, by simp⟩⟩
      simp [statusRunning]

/-- Master lemma for `exec_session_cmd`: the permit, the running-ness of the
status and the standalone exit code are preserved, and the call either
returns `Ok r`, appending exactly one trajectory entry carrying the
submission timestamp and the result, or fails, leaving the sandbox exactly
as it was. -/
theorem execSession_master (sb : SandboxM) (cmd : List Char) (env : SessEnv) :
    (execSessionCmd sb cmd env).1.permit = sb.permit
      ∧ statusRunning (execSessionCmd sb cmd env).1.status = statusRunning sb.status
      ∧ (execSessionCmd sb cmd env).1.lastStandaloneExitCode
          = sb.lastStandaloneExitCode
      ∧ ((∃ r, (execSessionCmd sb cmd env).2.2 = .ok r
            ∧ (execSessionCmd sb cmd env).1.trajectory
                = sb.trajectory
                    ++ [{ command := cmd, timestamp := env.now, result := some r }])
        ∨ ((∀ r, (execSessionCmd sb cmd env).2.2 ≠ .ok r)
            ∧ (execSessionCmd sb cmd env).1 = sb)) := by
  unfold execSessionCmd
  cases hst : sb.status with
  | exited c =>
    refine ⟨rfl, ?_, rfl, Or.inr ⟨by simp, rfl⟩⟩
    rw [hst]
  | created =>
    refine ⟨rfl, ?_, rfl, Or.inr ⟨by simp, rfl⟩⟩
    rw [hst]
  | stopped =>
    refine ⟨rfl, ?_, rfl, Or.inr ⟨by simp, rfl⟩⟩
    rw [hst]
  | started cid =>
    dsimp only
    by_cases h1 : (¬sb.hasInput : Prop)
    · rw [if_pos h1]
      exact ⟨rfl, by rw [hst], rfl, Or.inr ⟨by simp, rfl⟩⟩
    · rw [if_neg h1]
      by_cases h2 : (¬env.writeOk : Prop)
      · rw [if_pos h2]
        exact ⟨rfl, by rw [hst], rfl, Or.inr ⟨by simp, rfl⟩⟩
      · rw [if_neg h2]
        by_cases h3 : (¬sb.hasOutput : Prop)
        · rw [if_pos h3]
          exact ⟨rfl, by rw [hst], rfl, Or.inr ⟨by simp, rfl⟩⟩
        · rw [if_neg h3]
          cases env.read1 with
          | ok raw =>
            have hm := @finishSession_master sb cid cmd env.now
              ([Effect.attachWrite (cmd ++ ['\n'])]
                ++ [Effect.readStream 2000 200 (nCommandsHint cmd)]) raw hst
            simpa [hst, statusRunning] using hm
          | closed => exact ⟨rfl, by rw [hst], rfl, Or.inr ⟨by simp, rfl⟩⟩
          | timeout =>
            by_cases h4 : (¬env.nudgeWriteOk : Prop)
            · rw [if_pos h4]
              exact ⟨rfl, by rw [hst], rfl, Or.inr ⟨by simp, rfl⟩⟩
            · rw [if_neg h4]
              cases env.read2 with
              | ok raw =>
                have hm := @finishSession_master sb cid cmd env.now
                  (([Effect.attachWrite (cmd ++ ['\n'])]
                      ++ [Effect.readStream 2000 200 (nCommandsHint cmd)])
                    ++ [Effect.attachWrite ['\n'], Effect.readStream 2000 200 1]) raw hst
                simpa [hst, statusRunning] using hm
              | closed => exact ⟨rfl, by rw [hst], rfl, Or.inr ⟨by simp, rfl⟩⟩
              | timeout =>
                by_cases h5 : (¬env.eofWriteOk : Prop)
                · rw [if_pos h5]
                  exact ⟨rfl, by rw [hst], rfl, Or.inr ⟨by simp, rfl⟩⟩
                · rw [if_neg h5]
                  cases env.read3 with
                  | ok raw =>
                    have hm := @finishSession_master sb cid cmd env.now
                      ((([Effect.attachWrite (cmd ++ ['\n'])]
                          ++ [Effect.readStream 2000 200 (nCommandsHint cmd)])
                          ++ [Effect.attachWrite ['\n'], Effect.readStream 2000 200 1])
                        ++ [Effect.attachWrite ['\x04'], Effect.readStream 2000 200 1]) raw hst
                    simpa [hst, statusRunning] using hm
                  | closed =>
                    exact ⟨rfl, by rw [hst], rfl, Or.inr ⟨by simp, rfl⟩⟩
                  | timeout =>
                    exact ⟨rfl, by rw [hst], rfl, Or.inr ⟨by simp, rfl⟩⟩

/-- The first two effects of an `exec_session_cmd` call on a started sandbox
with streams attached and a successful command write: the write of
`cmd + "\n"` and the stream read with parameters
`(2.0, 0.2, n_commands_hint)`. -/
theorem execSession_trace {sb : SandboxM} {cid : String} {cmd : List Char}
    {env : SessEnv} (hs : sb.status = .started cid) (hi : sb.hasInput = true)
    (hw : env.writeOk = true) (ho : sb.hasOutput = true) :
    ((execSessionCmd sb cmd env).2.1).take 2
      = [.attachWrite (cmd ++ ['\n']), .readStream 2000 200 (nCommandsHint cmd)] := by
  unfold execSessionCmd
  rw [hs]
  dsimp only
  rw [if_neg (by simp [hi]), if_neg (by simp [hw]), if_neg (by simp [ho])]
  cases env.read1 with
  | ok raw =>
    rw [finishSession_effs]
    rfl
  | closed => rfl
  | timeout =>
    by_cases h4 : (¬env.nudgeWriteOk : Prop)
    · rw [if_pos h4]
      rfl
    · rw [if_neg h4]
      cases env.read2 with
      | ok raw =>
        dsimp only
        rw [finishSession_effs]
        rfl
      | closed => rfl
      | timeout =>
        by_cases h5 : (¬env.eofWriteOk : Prop)
        · rw [if_pos h5]
          rfl
        · rw [if_neg h5]
          cases env.read3 with
          | ok raw =>
            dsimp only
            rw [finishSession_effs]
            rfl
          | closed => rfl
          | timeout => rfl

/-! ## Claim C1 -/

/-- Claim C1 is refuted: two sandboxes with distinct ids are configured with
the same shell configuration line and matched with the same PS1 marker — the
markers do not embed the sandbox id. -/
theorem c1_cex :
    (mkSandboxM "a" "ubuntu:latest" []).id ≠ (mkSandboxM "b" "ubuntu:latest" []).id
      ∧ ps1MarkerOf (mkSandboxM "a" "ubuntu:latest" [])
          = ps1MarkerOf (mkSandboxM "b" "ubuntu:latest" [])
      ∧ sandboxConfCmd (mkSandboxM "a" "ubuntu:latest" [])
          = sandboxConfCmd (mkSandboxM "b" "ubuntu:latest" []) := by
  exact ⟨by decide, rfl, rfl⟩

/-- Claim C1 (corrected): the PS1, PS2 and exit-sentinel markers are
process-wide constants, each formed from a fixed prefix plus the single
hard-coded `UNIQUE_MARKER` string; every sandbox is configured with the same
constant `CONF_CMD`, independently of its id. -/
theorem c1_theorem : ∀ sb : SandboxM,
    ps1MarkerOf sb = "#PS1-" ++ UNIQUE_MARKER ++ "#:"
      ∧ ps2MarkerOf sb = "#PS2-" ++ UNIQUE_MARKER ++ "#:"
      ∧ exitMarkerOf sb = "#EXIT-" ++ UNIQUE_MARKER ++ "#:"
      ∧ sandboxConfCmd sb = CONF_CMD :=
  fun _ => ⟨rfl, rfl, rfl, rfl⟩

/-! ## Claim C2 -/

/-- Claim C2 is refuted as stated: on an input whose first prompt carries
digits exceeding `i64::MAX` (with a later well-formed prompt), the source
panics while parsing — it does not return the described tuple — although the
specification's description (which only reads the last match) would yield a
result. -/
theorem c2_cex :
    stripMarkersAndExtractExitCode inC2 = none
      ∧ stripSpec inC2 = some ([], 0, false) := by
  exact ⟨by decide, by decide⟩

/-- Claim C2 (corrected): on every input on which the function returns —
i.e. on which parsing the captured digits of each PS1-marker match succeeds —
it behaves exactly as described: PS2 markers removed; on an exit sentinel at
position `i` the buffer is rebuilt as the text before `i` plus the last
PS1-marker match of the full text; the exit code is the digits of the last
match (`-1` when there is none); matches and bare markers are removed and
trailing whitespace trimmed. -/
theorem c2_theorem : ∀ s : List Char,
    (stripMarkersAndExtractExitCode s).isSome →
      stripMarkersAndExtractExitCode s = stripSpec s := by
  intro s h
  have hb : (match firstIdxOf exitM (removeAll ps2M s) with
      | some i =>
        match ((ps1Matches (removeAll ps2M s)).getLast?).map (fun m => m.1) with
        | some t => List.take i (removeAll ps2M s) ++ t
        | none => List.take i (removeAll ps2M s)
      | none => removeAll ps2M s) = stripBuf s := by
    unfold stripBuf
    dsimp only
    cases firstIdxOf exitM (removeAll ps2M s) with
    | none => rfl
    | some i =>
      cases (ps1Matches (removeAll ps2M s)).getLast? with
      | none => rfl
      | some m => rfl
  unfold stripMarkersAndExtractExitCode at h ⊢
  unfold stripSpec
  dsimp only at h ⊢
  rw [hb]
  cases htr : optionTraverse (fun m => parseI64Digits m.2) (ps1Matches (stripBuf s)) with
  | none => rw [htr] at h; simp at h
  | some codes =>
    have hlast := @optionTraverse_getLastD _ _ (fun m => parseI64Digits m.2)
      (-1) (ps1Matches (stripBuf s)) codes htr
    simp only [] at hlast
    cases hgl : (ps1Matches (stripBuf s)).getLast? with
    | none =>
      rw [hgl] at hlast
      dsimp only at hlast
      simp only [Option.some.injEq] at hlast
      dsimp only
      rw [← hlast]
      rfl
    | some m =>
      rw [hgl] at hlast
      dsimp only at hlast
      dsimp only
      rw [hlast]
      rfl

/-- Witness for `c2_theorem` at a concrete input. -/
theorem c2_witness :
    (stripMarkersAndExtractExitCode (("hello " ++ PS1_MARKER ++ "0:").data)).isSome
      ∧ stripMarkersAndExtractExitCode (("hello " ++ PS1_MARKER ++ "0:").data)
          = stripSpec (("hello " ++ PS1_MARKER ++ "0:").data) :=
  ⟨by decide, c2_theorem _ (by decide)⟩

/-! ## Claim C8 -/

/-- Claim C8 is refuted: on a prompt whose captured digits are
`i64::MAX + 1`, `strip_markers_and_extract_exit_code` does not return
normally with the `-1` sentinel — the `parse::<i64>().expect(..)` panics
(modelled as `none`). -/
theorem c8_cex : stripMarkersAndExtractExitCode inC8 = none := by decide

/-- Claim C8 (corrected): the function returns normally whenever every
captured digit run fits in a signed 64-bit integer, and then reports the
`-1` sentinel exactly when the text contains no PS1-marker match at all;
when a captured digit run exceeds the `i64` range the exit-code parse fails
and the function panics instead of falling back to `-1`. -/
theorem c8_theorem : ∀ s : List Char,
    (∀ m ∈ ps1Matches (stripBuf s), digitsToNat m.2 ≤ I64_MAX) →
      ∃ r, stripMarkersAndExtractExitCode s = some r
        ∧ (ps1Matches (stripBuf s) = [] → r.2.1 = -1) := by
  intro s hbound
  have hsome : ∀ m ∈ ps1Matches (stripBuf s),
      ((fun m => parseI64Digits m.2) m).isSome := by
    intro m hm
    obtain ⟨hne, hall⟩ := ps1Matches_digits hm
    simp [parseI64Digits, hne, hall, hbound m hm]
  obtain ⟨l, hl⟩ := optionTraverse_isSome hsome
  refine ⟨(trimEnd (removeAll ps1M (ps1Remove (stripBuf s))), l.getLastD (-1),
    exitSeenIn s), ?_, ?_⟩
  · unfold stripMarkersAndExtractExitCode
    dsimp only
    rw [hl]
  · intro hnil
    rw [hnil] at hl
    simp only [optionTraverse, Option.some.injEq] at hl
    subst hl
    rfl

/-- Witness for `c8_theorem` at a concrete input. -/
theorem c8_witness :
    (∀ m ∈ ps1Matches (stripBuf (("ok " ++ PS1_MARKER ++ "7:").data)),
        digitsToNat m.2 ≤ I64_MAX)
      ∧ ∃ r, stripMarkersAndExtractExitCode (("ok " ++ PS1_MARKER ++ "7:").data)
          = some r
          ∧ (ps1Matches (stripBuf (("ok " ++ PS1_MARKER ++ "7:").data)) = []
              → r.2.1 = -1) :=
  ⟨by decide, c8_theorem _ (by decide)⟩

/-! ## Claim C9 -/

/-- Claim C9 is refuted: the session output produced for a buffer containing
`abc\x0ddef` keeps the pre-carriage-return segment — it is not a fixed point
of the carriage-return folding the claim describes, so no such folding is
applied. -/
theorem c9_cex :
    stripMarkersAndExtractExitCode inC9 = some (outC9, 0, false)
      ∧ foldCrLines outC9 ≠ outC9 := by
  exact ⟨by decide, by decide⟩

/-- Claim C9 (corrected): the session pipeline performs no carriage-return
folding: for any non-marker characters `a` and `b` (with `b` not
whitespace), the marker-stripping stage returns `a\x0db` unchanged — the
segment before the carriage return is preserved rather than replaced by the
post-`\x0d` segment.  (The external ANSI stripper is character-local and
cannot fold lines either.) -/
theorem c9_theorem : ∀ a b : Char, a ≠ '#' → b ≠ '#' → b.isWhitespace = false →
    stripMarkersAndExtractExitCode ([a, '\x0d', b] ++ ps1M ++ ['0', ':'])
      = some ([a, '\x0d', b], 0, false) := by
  intro a b ha hb hbw
  have hr : ('\x0d' : Char) ≠ '#' := by decide
  have hp2 : ps2M.head? = some '#' := by decide
  have hpe : exitM.head? = some '#' := by decide
  have hp1 : ps1M.head? = some '#' := by decide
  have hform : [a, '\x0d', b] ++ ps1M ++ ['0', ':']
      = a :: '\x0d' :: b :: (ps1M ++ ['0', ':']) := by simp
  have h1 : removeAll ps2M (a :: '\x0d' :: b :: (ps1M ++ ['0', ':']))
      = a :: '\x0d' :: b :: (ps1M ++ ['0', ':']) := by
    rw [removeAll_cons hp2 ha, removeAll_cons hp2 hr, removeAll_cons hp2 hb]
    rw [show removeAll ps2M (ps1M ++ ['0', ':']) = ps1M ++ ['0', ':'] from by decide]
  have h2 : firstIdxOf exitM (a :: '\x0d' :: b :: (ps1M ++ ['0', ':'])) = none := by
    rw [firstIdxOf_cons hpe ha, firstIdxOf_cons hpe hr, firstIdxOf_cons hpe hb]
    rw [show firstIdxOf exitM (ps1M ++ ['0', ':']) = none from by decide]
    rfl
  have h3 : ps1Scan (a :: '\x0d' :: b :: (ps1M ++ ['0', ':']))
      = ([(ps1M ++ ['0', ':'], ['0'])], [a, '\x0d', b]) := by
    rw [ps1Scan_cons ha, ps1Scan_cons hr, ps1Scan_cons hb]
    rw [show ps1Scan (ps1M ++ ['0', ':']) = ([(ps1M ++ ['0', ':'], ['0'])], []) from by decide]
  have h4 : removeAll ps1M [a, '\x0d', b] = [a, '\x0d', b] := by
    show removeAll ps1M (a :: '\x0d' :: b :: []) = _
    rw [removeAll_cons hp1 ha, removeAll_cons hp1 hr, removeAll_cons hp1 hb]
    rfl
  have h5 : trimEnd [a, '\x0d', b] = [a, '\x0d', b] := by
    simp [trimEnd, List.dropWhile, hbw]
  rw [hform]
  unfold stripMarkersAndExtractExitCode stripBuf exitSeenIn
  dsimp only
  rw [h1, h2]
  unfold ps1Matches ps1Remove
  rw [h3]
  dsimp only
  rw [show optionTraverse (fun m => parseI64Digits m.2)
        [(ps1M ++ ['0', ':'], ['0'])] = some [(0 : Int)] from by decide]
  rw [h4, h5]
  rfl

/-- Witness for `c9_theorem` at concrete characters. -/
theorem c9_witness :
    stripMarkersAndExtractExitCode (['x', '\x0d', 'y'] ++ ps1M ++ ['0', ':'])
      = some (['x', '\x0d', 'y'], 0, false) :=
  c9_theorem 'x' 'y' (by decide) (by decide) (by decide)

/-! ## Claim C10 -/

/-- Claim C10 (confirmed): `start_sandbox` acquires a permit before the
registry lookup; a request for an unknown id while a permit is available
acquires and then releases the permit around the 404, and a request while
all permits are held blocks before the lookup, even for an unknown id. -/
theorem c10_theorem : ∀ (st : ServerState) (id : String),
    (id ∉ st.registry → st.permits ≠ 0 →
      startSandboxHandler st id
        = ([.acquirePermit, .lookupSandbox id, .releasePermit], .notFound))
      ∧ (st.permits = 0 → startSandboxHandler st id = ([], .blocked)) := by
  intro st id
  constructor
  · intro hmem hp
    simp [startSandboxHandler, hp, hmem]
  · intro hp
    simp [startSandboxHandler, hp]

/-- Witness for `c10_theorem` at a concrete server state. -/
theorem c10_witness :
    startSandboxHandler ⟨1, ["x"]⟩ "y"
        = ([.acquirePermit, .lookupSandbox "y", .releasePermit], .notFound)
      ∧ startSandboxHandler ⟨0, ["x"]⟩ "y" = ([], .blocked) :=
  ⟨(c10_theorem ⟨1, ["x"]⟩ "y").1 (by decide) (by decide),
   (c10_theorem ⟨0, ["x"]⟩ "y").2 rfl⟩

/-- A `start` that fails before its container is created (image absent and
pull failing, or creation failing) leaves the sandbox unchanged. -/
theorem startSb_fails_before {sb : SandboxM} {env : StartEnv}
    (hs : sb.status = .created)
    (hfb : (env.imagePresent = false ∧ env.pullOk = false) ∨ env.createOk = false) :
    (startSb sb env).1 = sb := by
  unfold startSb
  rw [hs]
  dsimp only
  by_cases h1 : (¬env.imagePresent ∧ ¬env.pullOk : Prop)
  · rw [if_pos h1]
  · rw [if_neg h1]
    have hc : env.createOk = false := by
      rcases hfb with ⟨hi, hp⟩ | hc
      · exact absurd ⟨by simp [hi], by simp [hp]⟩ h1
      · exact hc
    rw [if_pos (by simp [hc])]

/-! ## Claim C3 -/

/-- One good operation preserves the permit/status relation. -/
theorem permitInv_step {sb : SandboxM} {op : Op} (hinv : permitInv sb)
    (hop : goodOpB op = true) : permitInv (stepSb sb op) := by
  cases op with
  | start env =>
    by_cases hs : sb.status = .created
    · simp only [goodOpB, Bool.or_eq_true] at hop
      rcases hop with hsucc | hfail
      · obtain ⟨hp, hst, -⟩ := startSb_success hs hsucc
        simp only [stepSb, permitInv]
        rw [hp, hst]
        rfl
      · have hfb : (env.imagePresent = false ∧ env.pullOk = false)
            ∨ env.createOk = false := by
          simpa only [startEnvFailsBeforeCreateB, Bool.or_eq_true, Bool.and_eq_true,
            Bool.not_eq_true'] using hfail
        have heq := startSb_fails_before hs hfb
        simp only [stepSb, permitInv]
        rw [heq]
        exact hinv
    · simp only [stepSb, permitInv]
      rw [startSb_not_created hs]
      exact hinv
  | execSession cmd env =>
    obtain ⟨hp, hr, -, -⟩ := execSession_master sb cmd env
    simp only [stepSb, permitInv]
    rw [hp, hr]
    exact hinv
  | execStandalone cmd env =>
    obtain ⟨h1, -, h3, -, -, -, -⟩ := execStandalone_frame sb cmd env
    simp only [stepSb, permitInv]
    rw [h1, h3]
    exact hinv
  | stop =>
    obtain ⟨h1, h2, -⟩ := stopSb_state sb
    simp only [stepSb, permitInv]
    rw [h1, h2]

theorem runOps_cons (sb : SandboxM) (op : Op) (ops : List Op) :
    runOps sb (op :: ops) = runOps (stepSb sb op) ops := rfl

/-- Claim C3 is refuted: a `start` call that fails after creating its
container (here, at the shell attach) releases the caller's permit yet
leaves the sandbox in `Started`, so the sandbox is in `Started` while
holding zero permits. -/
theorem c3_cex :
    (runOps (mkSandboxM "s3" "ubuntu:latest" []) [.start envAttachFail]).status
        = .started "c"
      ∧ (runOps (mkSandboxM "s3" "ubuntu:latest" []) [.start envAttachFail]).permit
          = false := by
  exact ⟨by decide, by decide⟩

/-- Claim C3 (corrected): the relation "one permit held iff the status is
`Started` or `Exited`" holds along every operation sequence whose `start`
calls either fully succeed or fail before their container is created; a
`start` that fails after container creation breaks it, leaving `Started`
with zero permits. -/
theorem c3_theorem : ∀ (id image : String) (setup : List Char) (ops : List Op),
    (∀ op ∈ ops, goodOpB op = true) →
      permitInv (runOps (mkSandboxM id image setup) ops) := by
  have H : ∀ (ops : List Op) (sb : SandboxM),
      (∀ op ∈ ops, goodOpB op = true) → permitInv sb → permitInv (runOps sb ops) := by
    intro ops
    induction ops with
    | nil => intro sb _ hinv; exact hinv
    | cons op rest ih =>
      intro sb hall hinv
      rw [runOps_cons]
      exact ih (stepSb sb op) (fun o ho => hall o (by simp [ho]))
        (permitInv_step hinv (hall op (by simp)))
  intro id image setup ops hall
  exact H ops _ hall rfl

/-- Witness for `c3_theorem` on a concrete good operation sequence. -/
theorem c3_witness :
    (∀ op ∈ [Op.start envStartOk, Op.execStandalone ("pwd".data) execEnvTrivial,
        Op.stop], goodOpB op = true)
      ∧ permitInv (runOps (mkSandboxM "s" "ubuntu:latest" [])
          [Op.start envStartOk, Op.execStandalone ("pwd".data) execEnvTrivial,
           Op.stop]) :=
  ⟨by decide, c3_theorem "s" "ubuntu:latest" [] _ (by decide)⟩

/-! ## Claim C4 -/

/-- Claim C4 is refuted in its second half: a `start` whose setup command
fails (after the container was created) performs no best-effort container
removal and leaves the sandbox in `Started("c")`, not `Stopped`. -/
theorem c4_cex :
    (startSb (mkSandboxM "s4" "ubuntu:latest" ("false".data)) envSetupFail).2.2
        = .err (.setupCommandsFailed ("boom".data))
      ∧ (startSb (mkSandboxM "s4" "ubuntu:latest" ("false".data)) envSetupFail).1.status
          = .started "c"
      ∧ (startSb (mkSandboxM "s4" "ubuntu:latest" ("false".data)) envSetupFail).1.status
          ≠ .stopped
      ∧ hasRemove
          (startSb (mkSandboxM "s4" "ubuntu:latest" ("false".data)) envSetupFail).2.1
          = false := by
  exact ⟨by decide, by decide, by decide, by decide⟩

/-- Claim C4 (corrected): `start` failures before container creation leave
the sandbox in `Created` with the permit released (the state is unchanged);
failures after container creation attempt no removal at all — the sandbox
stays in `Started(cid)` (never `Stopped`) with the permit field untouched
and the error surfaced. -/
theorem c4_theorem :
    (∀ (sb : SandboxM) (env : StartEnv), sb.status = .created →
        ((env.imagePresent = false ∧ env.pullOk = false) ∨ env.createOk = false) →
          (startSb sb env).1 = sb ∧ (startSb sb env).2.2 ≠ .ok ())
      ∧ (∀ (sb : SandboxM) (env : StartEnv), sb.status = .created →
          env.createOk = true → (env.imagePresent = true ∨ env.pullOk = true) →
          (startSb sb env).2.2 ≠ .ok () →
            (startSb sb env).1.status = .started env.cid
              ∧ (startSb sb env).1.permit = sb.permit
              ∧ hasRemove (startSb sb env).2.1 = false
              ∧ (startSb sb env).1.status ≠ .stopped) := by
  constructor
  · intro sb env hs hfb
    have heq := startSb_fails_before hs hfb
    refine ⟨heq, ?_⟩
    obtain ⟨-, -, hshape⟩ := @startSb_master sb env hs
    rcases hshape with ⟨-, -, hno⟩ | ⟨hst, -, hno⟩ | ⟨hst, -, -⟩
    · exact hno
    · exact hno
    · rw [heq, hs] at hst
      exact absurd hst (by simp)
  · intro sb env hs hc hpull hout
    obtain ⟨-, hnr, hshape⟩ := @startSb_master sb env hs
    rcases hshape with ⟨hcond, -, -⟩ | ⟨hst, hp, -⟩ | ⟨-, -, hok⟩
    · exfalso
      rcases hcond with ⟨hi, hpo⟩ | hcf
      · rcases hpull with h | h
        · rw [h] at hi; exact Bool.noConfusion hi
        · rw [h] at hpo; exact Bool.noConfusion hpo
      · rw [hc] at hcf; exact Bool.noConfusion hcf
    · refine ⟨hst, hp, hnr, ?_⟩
      rw [hst]
      simp
    · exact absurd hok hout

/-- Witness for `c4_theorem` at concrete failing starts. -/
theorem c4_witness :
    ((startSb (mkSandboxM "s" "ubuntu:latest" [])
          { envAttachFail with createOk := false }).1
        = mkSandboxM "s" "ubuntu:latest" []
      ∧ (startSb (mkSandboxM "s" "ubuntu:latest" [])
            { envAttachFail with createOk := false }).2.2 ≠ .ok ())
    ∧ ((startSb (mkSandboxM "s" "ubuntu:latest" [])
            { envStartOk with startOk := false }).1.status
          = .started ({ envStartOk with startOk := false } : StartEnv).cid
        ∧ (startSb (mkSandboxM "s" "ubuntu:latest" [])
              { envStartOk with startOk := false }).1.permit
            = (mkSandboxM "s" "ubuntu:latest" []).permit
        ∧ hasRemove (startSb (mkSandboxM "s" "ubuntu:latest" [])
              { envStartOk with startOk := false }).2.1 = false
        ∧ (startSb (mkSandboxM "s" "ubuntu:latest" [])
              { envStartOk with startOk := false }).1.status ≠ .stopped) :=
  ⟨c4_theorem.1 _ _ rfl (by decide),
   c4_theorem.2 _ _ rfl (by decide) (by decide) (by decide)⟩

/-! ## Claim C5 -/

/-- Claim C5 is refuted: for `cmd = "ls"` (zero embedded newlines), the
stream read of `exec_session_cmd` is invoked with
`short_circuit_after_n_markers = 1`, not `0` — the hint is
`cmd.split('\n').count()`, the newline count plus one. -/
theorem c5_cex :
    (execSessionCmd sbStartedW ("ls".data) sessEnvOkW).2.1
        = [.attachWrite (("ls".data) ++ ['\n']), .readStream 2000 200 1]
      ∧ ("ls".data).count '\n' = 0 := by
  exact ⟨by decide, by decide⟩

/-- Claim C5 (corrected): `exec_session(cmd)` invokes the stream-read
primitive with overall timeout 2.0 s, idle timeout 0.2 s and
`short_circuit_after_n_markers = k + 1` where `k` is the number of newlines
in `cmd` (the hint is `cmd.split('\n').count()`); and the reader
short-circuits: as soon as a chunk arriving within the idle timeout brings
the marker count up to the requested `n ≥ 1`, it returns the accumulated
buffer at once, consuming no further events and without waiting out the
timeouts. -/
theorem c5_theorem :
    (∀ cmd : List Char, nCommandsHint cmd = cmd.count '\n' + 1)
      ∧ (∀ (sb : SandboxM) (cid : String) (cmd : List Char) (env : SessEnv),
          sb.status = .started cid → sb.hasInput = true → env.writeOk = true →
            sb.hasOutput = true →
            ((execSessionCmd sb cmd env).2.1).take 2
              = [.attachWrite (cmd ++ ['\n']),
                 .readStream 2000 200 (cmd.count '\n' + 1)])
      ∧ (∀ (fuel : Nat) (stripFn : List Char → List Char) (d : Int)
          (data : List Char) (rest : List (Int × List Char)) (closes : Bool)
          (n : Nat), 1 ≤ fuel → 1 ≤ n → d ≤ 200 →
            n ≤ countMarkers (stripFn data) →
            readStreamUntilIdle stripFn 2000 200 n fuel ((d, data) :: rest) closes
              = .ok (stripFn data)) := by
  refine ⟨nCommandsHint_eq, ?_, ?_⟩
  · intro sb cid cmd env hs hi hw ho
    rw [execSession_trace hs hi hw ho, nCommandsHint_eq]
  · intro fuel stripFn d data rest closes n hf hn hd hcnt
    obtain ⟨f, rfl⟩ : ∃ f, fuel = f + 1 :=
      ⟨fuel - 1, (Nat.succ_pred_eq_of_pos hf).symm⟩
    unfold readStreamUntilIdle
    simp only [readAux]
    rw [if_neg (by decide)]
    try dsimp only
    rw [if_pos hd]
    simp only [List.nil_append]
    rw [if_pos (show (0 : Nat) < countMarkers (stripFn data) from
      lt_of_lt_of_le hn hcnt)]
    rw [if_pos (show n ≤ 0 + (countMarkers (stripFn data) - 0) from by
      simpa using hcnt)]

/-- Witness for `c5_theorem` at a concrete command and a concrete stream. -/
theorem c5_witness :
    ((execSessionCmd sbStartedW ("ls".data) sessEnvOkW).2.1).take 2
        = [.attachWrite (("ls".data) ++ ['\n']),
           .readStream 2000 200 (("ls".data).count '\n' + 1)]
      ∧ readStreamUntilIdle id 2000 200 1 1
          [(0, ("x " ++ PS1_MARKER ++ "0:").data)] false
          = .ok (id (("x " ++ PS1_MARKER ++ "0:").data)) :=
  ⟨c5_theorem.2.1 sbStartedW "c" ("ls".data) sessEnvOkW rfl rfl rfl rfl,
   c5_theorem.2.2 1 id 0 (("x " ++ PS1_MARKER ++ "0:").data) [] false 1
     (by decide) (by decide) (by decide) (by decide)⟩

/-! ## Claim C6 -/

/-- Claim C6 is refuted: an `exec_session` call in the `Started` state whose
stdin write fails appends no trajectory entry at all — no entry with
`result = none` was appended before the write. -/
theorem c6_cex :
    (execSessionCmd sbStartedW ("ls".data) sessEnvWriteFail).1.trajectory = []
      ∧ (execSessionCmd sbStartedW ("ls".data) sessEnvWriteFail).2.2
          = .err .containerWriteFailed
      ∧ sbStartedW.trajectory = [] := by
  exact ⟨by decide, by decide, by decide⟩

/-- Every operation only ever appends to the trajectory. -/
theorem stepSb_traj (sb : SandboxM) (op : Op) :
    ∃ t, (stepSb sb op).trajectory = sb.trajectory ++ t := by
  cases op with
  | start env =>
    by_cases hs : sb.status = .created
    · exact ⟨[], by simpa using (@startSb_master sb env hs).1⟩
    · refine ⟨[], ?_⟩
      simp only [stepSb]
      rw [startSb_not_created hs]
      simp
  | execSession cmd env =>
    obtain ⟨-, -, -, hsh⟩ := execSession_master sb cmd env
    rcases hsh with ⟨r, -, htr⟩ | ⟨-, heq⟩
    · exact ⟨_, htr⟩
    · refine ⟨[], ?_⟩
      simp only [stepSb]
      rw [heq]
      simp
  | execStandalone cmd env =>
    exact ⟨[], by simpa using (execStandalone_frame sb cmd env).2.1⟩
  | stop => exact ⟨[], by simpa using (stopSb_state sb).2.2⟩

/-- Claim C6 (corrected): a successful `exec_session(cmd)` call appends
exactly one entry, carrying the submission timestamp and the already-filled
result; a failed call appends nothing (in particular no `result = none`
entry is ever stored); and across any operation sequence the trajectory is
append-only — stored entries are never mutated or removed. -/
theorem c6_theorem :
    (∀ (sb : SandboxM) (cmd : List Char) (env : SessEnv)
        (sb' : SandboxM) (effs : List Effect) (r : CommandResult),
        execSessionCmd sb cmd env = (sb', effs, .ok r) →
          sb'.trajectory = sb.trajectory
            ++ [{ command := cmd, timestamp := env.now, result := some r }])
      ∧ (∀ (sb : SandboxM) (cmd : List Char) (env : SessEnv)
          (sb' : SandboxM) (effs : List Effect) (out : Outcome CommandResult),
          execSessionCmd sb cmd env = (sb', effs, out) →
            (∀ r, out ≠ .ok r) → sb'.trajectory = sb.trajectory)
      ∧ (∀ (sb : SandboxM) (ops : List Op),
          ∃ t, (runOps sb ops).trajectory = sb.trajectory ++ t) := by
  refine ⟨?_, ?_, ?_⟩
  · intro sb cmd env sb' effs r hE
    obtain ⟨-, -, -, hsh⟩ := execSession_master sb cmd env
    rcases hsh with ⟨r0, hout, htr⟩ | ⟨hne, -⟩
    · rw [hE] at hout htr
      dsimp only at hout htr
      cases hout
      exact htr
    · exfalso
      have := hne r
      rw [hE] at this
      exact this rfl
  · intro sb cmd env sb' effs out hE hne
    obtain ⟨-, -, -, hsh⟩ := execSession_master sb cmd env
    rcases hsh with ⟨r0, hout, -⟩ | ⟨-, heq⟩
    · exfalso
      rw [hE] at hout
      exact hne r0 hout
    · rw [hE] at heq
      dsimp only at heq
      rw [heq]
  · intro sb ops
    induction ops generalizing sb with
    | nil => exact ⟨[], by simp [runOps]⟩
    | cons op rest ih =>
      obtain ⟨t1, h1⟩ := stepSb_traj sb op
      obtain ⟨t2, h2⟩ := ih (stepSb sb op)
      refine ⟨t1 ++ t2, ?_⟩
      rw [runOps_cons, h2, h1, List.append_assoc]

/-- Witness for `c6_theorem` at a concrete successful call, a concrete
failed call and a concrete operation sequence. -/
theorem c6_witness :
    ((execSessionCmd sbStartedW ("ls".data) sessEnvOkW).1.trajectory
        = sbStartedW.trajectory
          ++ [{ command := ("ls".data), timestamp := sessEnvOkW.now,
                result := some { output := ("x".data), exitCode := 0,
                                 exited := false } }])
      ∧ ((execSessionCmd sbStartedW ("rm x".data) sessEnvWriteFail).1.trajectory
          = sbStartedW.trajectory)
      ∧ (∃ t, (runOps sbStartedW [Op.stop]).trajectory
          = sbStartedW.trajectory ++ t) :=
by
  refine ⟨?_, ?_, c6_theorem.2.2 sbStartedW [Op.stop]⟩
  · exact c6_theorem.1 sbStartedW ("ls".data) sessEnvOkW
      ((execSessionCmd sbStartedW ("ls".data) sessEnvOkW).1)
      ((execSessionCmd sbStartedW ("ls".data) sessEnvOkW).2.1)
      { output := ("x".data), exitCode := 0, exited := false } (by decide)
  · refine c6_theorem.2.1 sbStartedW ("rm x".data) sessEnvWriteFail
      ((execSessionCmd sbStartedW ("rm x".data) sessEnvWriteFail).1)
      ((execSessionCmd sbStartedW ("rm x".data) sessEnvWriteFail).2.1)
      (.err .containerWriteFailed) (by decide) ?_
    intro r h
    exact Outcome.noConfusion h

/-! ## Claim C7 -/

/-- Claim C7 (confirmed): `exec_standalone(cmd)` on a sandbox in `Started`
or `Exited` leaves the status and the trajectory unchanged; on success it
sets `last_standalone_exit_code` to the exec's exit code and returns
`exited = false`; on an error return — and likewise on the
missing-exit-code panic — the sandbox is left exactly as it was. -/
theorem c7_theorem : ∀ (sb : SandboxM) (cmd : List Char) (env : ExecEnv),
    statusRunning sb.status = true →
      (∀ (sb' : SandboxM) (effs : List Effect) (r : CommandResult),
          execStandaloneCmd sb cmd env = (sb', effs, .ok r) →
            sb'.status = sb.status ∧ sb'.trajectory = sb.trajectory
              ∧ sb'.lastStandaloneExitCode = some r.exitCode ∧ r.exited = false)
        ∧ (∀ (sb' : SandboxM) (effs : List Effect) (e : SErr),
            execStandaloneCmd sb cmd env = (sb', effs, .err e) → sb' = sb)
        ∧ (∀ (sb' : SandboxM) (effs : List Effect),
            execStandaloneCmd sb cmd env = (sb', effs, .panicked) → sb' = sb) := by
  intro sb cmd env hrun
  refine ⟨?_, ?_, ?_⟩
  · intro sb' effs r h
    unfold execStandaloneCmd at h
    revert h
    cases hst : sb.status <;> intro h <;> dsimp only at h
    · simp at h
    · split at h
      · simp at h
      · split at h
        · simp at h
        · split at h
          · simp at h
          · split at h
            · simp at h
            · revert h
              cases env.exitCode <;> intro h <;> dsimp only at h
              · simp at h
              · simp only [Prod.mk.injEq, Outcome.ok.injEq] at h
                obtain ⟨hsb, -, hr⟩ := h
                subst hsb
                subst hr
                exact ⟨by simp, by simp, by simp, rfl⟩
    · split at h
      · simp at h
      · split at h
        · simp at h
        · split at h
          · simp at h
          · split at h
            · simp at h
            · revert h
              cases env.exitCode <;> intro h <;> dsimp only at h
              · simp at h
              · simp only [Prod.mk.injEq, Outcome.ok.injEq] at h
                obtain ⟨hsb, -, hr⟩ := h
                subst hsb
                subst hr
                exact ⟨by simp, by simp, by simp, rfl⟩
    · simp at h
  · intro sb' effs e h
    unfold execStandaloneCmd at h
    revert h
    cases hst : sb.status <;> intro h <;> dsimp only at h
    · simp only [Prod.mk.injEq] at h
      exact h.1.symm
    · split at h
      · simp only [Prod.mk.injEq] at h
        exact h.1.symm
      · split at h
        · simp only [Prod.mk.injEq] at h
          exact h.1.symm
        · split at h
          · simp only [Prod.mk.injEq] at h
            exact h.1.symm
          · split at h
            · simp only [Prod.mk.injEq] at h
              exact h.1.symm
            · revert h
              cases env.exitCode <;> intro h <;> dsimp only at h
              · simp at h
              · simp at h
    · split at h
      · simp only [Prod.mk.injEq] at h
        exact h.1.symm
      · split at h
        · simp only [Prod.mk.injEq] at h
          exact h.1.symm
        · split at h
          · simp only [Prod.mk.injEq] at h
            exact h.1.symm
          · split at h
            · simp only [Prod.mk.injEq] at h
              exact h.1.symm
            · revert h
              cases env.exitCode <;> intro h <;> dsimp only at h
              · simp at h
              · simp at h
    · simp only [Prod.mk.injEq] at h
      exact h.1.symm
  · intro sb' effs h
    unfold execStandaloneCmd at h
    revert h
    cases hst : sb.status <;> intro h <;> dsimp only at h
    · simp at h
    · split at h
      · simp at h
      · split at h
        · simp at h
        · split at h
          · simp at h
          · split at h
            · simp at h
            · revert h
              cases env.exitCode <;> intro h <;> dsimp only at h
              · simp only [Prod.mk.injEq] at h
                exact h.1.symm
              · simp at h
    · split at h
      · simp at h
      · split at h
        · simp at h
        · split at h
          · simp at h
          · split at h
            · simp at h
            · revert h
              cases env.exitCode <;> intro h <;> dsimp only at h
              · simp only [Prod.mk.injEq] at h
                exact h.1.symm
              · simp at h
    · simp at h

/-- Witness for `c7_theorem` at a concrete standalone exec. -/
theorem c7_witness :
    (execStandaloneCmd sbStartedW ("pwd".data) execEnvTrivial).1.status
        = sbStartedW.status
      ∧ (execStandaloneCmd sbStartedW ("pwd".data) execEnvTrivial).1.trajectory
          = sbStartedW.trajectory
      ∧ (execStandaloneCmd sbStartedW ("pwd".data) execEnvTrivial).1.lastStandaloneExitCode
          = some (({ output := [], exitCode := 0, exited := false } : CommandResult).exitCode)
      ∧ ({ output := [], exitCode := 0, exited := false } : CommandResult).exited
          = false :=
  (c7_theorem sbStartedW ("pwd".data) execEnvTrivial (by decide)).1
    ((execStandaloneCmd sbStartedW ("pwd".data) execEnvTrivial).1)
    ((execStandaloneCmd sbStartedW ("pwd".data) execEnvTrivial).2.1)
    { output := [], exitCode := 0, exited := false } (by decide)

end Sos
